import Mathlib

/-!
Shallow embedding of the Learning-Dynamics multilevel-selection simulator.

The repository contains several near-duplicate implementations of the same
engine; the embedding below covers the parts the verification targets:

* `src/src/constants.py` — the `Strategy` enumeration and the two payoff
  matrices (namespace `LD`);
* `src/src/individual.py` — `Individual`, its equality / hash / deep-copy
  protocol (`LD.Individual`), and `src/src/models/individual.py`'s variant
  of `__deepcopy__`;
* `src/src/population.py` — the `Population` phases (interaction, fitness,
  reproduction, conflict, splitting) and `run_simulation` (namespace
  `SrcPop`);
* `src/src/models/population.py` and `src/src/classes/population.py` —
  the variants of partner selection, conflict flagging and group
  splitting that differ from `src/src/population.py` (namespace
  `ClsPop`, `LD.Individual.deepcopyModels`,
  `SrcPop.modelsGroupInvolvedDist`);
* `simulation3.py` — the flat, capped replicate driver (namespace `Sim3`).

Python floats are modelled as rationals (`ℚ`) except for the fractional
exponentiation in the conflict phase, which is modelled over `ℝ`
(`Real.rpow`).  Randomness is modelled possibilistically: a draw stream
`R : Nat → ℚ` together with a read offset `k : Nat` stands for the
sequence of values produced by `random.random()`; derived primitives
(`random.choice`, `random.randint`, `random.choices`, `random.shuffle`)
consume draws from the stream exactly where the source calls them.
Theorems universally quantified over the stream therefore cover every
possible execution, and a concrete stream exhibits one realizable
execution.  Operations that raise in Python (indexing an empty list,
`random.choice` of an empty sequence, …) are modelled with `Option`.

A separate, distribution-level model (a weighted-list monad `Distr`) is
used for the two claims that are about selection *probabilities* rather
than about a single execution path.
-/

namespace LD

/-- Strategy enumeration from `src/src/constants.py` (`ALTRUIST`,
`PAROCHIALIST`, `EGOIST`, with intended indices 0, 1, 2). -/
inductive Strategy where
  | ALTRUIST : Strategy
  | PAROCHIALIST : Strategy
  | EGOIST : Strategy
deriving DecidableEq

/-- A Python enum member's `.value` as it exists at runtime.  In
`src/src/constants.py` the lines `ALTRUIST = 0,` and `PAROCHIALIST = 1,`
end in a trailing comma, so those two members' values are the
one-element tuples `(0,)` and `(1,)`; only `EGOIST = 2` carries the
integer `2`. -/
inductive PyVal where
  | int : Nat → PyVal
  | tuple1 : Nat → PyVal
deriving DecidableEq

/-- `Strategy.<X>.value` from `src/src/constants.py`, used as a row /
column index into the payoff matrices. -/
def Strategy.value : Strategy → PyVal
  | .ALTRUIST => .tuple1 0
  | .PAROCHIALIST => .tuple1 1
  | .EGOIST => .int 2

/-- Python list subscription `l[v]` by an enum member value: an `int`
value indexes the list (`IndexError` when out of range), while a tuple
value raises `TypeError`; both failures are `none` (inside
`calculate_payoff` the `except` clause catches `IndexError`/`KeyError`
and re-raises `ValueError`, and `TypeError` is not caught at all, so
every failing lookup escapes the method as an exception). -/
def pySubscript {α : Type} (l : List α) : PyVal → Option α
  | .int i => l[i]?
  | .tuple1 _ => none

/-- `A_IN_MATRIX` from `src/src/constants.py`: the list-of-lists payoff
matrix used when both parties are in the same group (row = own strategy
value, column = the partner's). -/
def A_IN_MATRIX (b c : ℚ) : List (List ℚ) :=
  [[b - c, b - c, -c],
   [b - c, b - c, -c],
   [b, b, 0]]

/-- `A_OUT_MATRIX` from `src/src/constants.py`: the list-of-lists payoff
matrix used when the two parties are in different groups. -/
def A_OUT_MATRIX (b c : ℚ) : List (List ℚ) :=
  [[b - c, -c, -c],
   [b, 0, 0],
   [b, 0, 0]]

/-- `Individual` from `src/src/individual.py`: a strategy, an accumulated
payoff, a derived fitness, and a string id (a UUID in the source). -/
structure Individual where
  strategy : Strategy
  payoff : ℚ
  fitness : ℚ
  id : String
deriving DecidableEq

/-- `Individual.__eq__`: equality is by `id` only (strategy, payoff and
fitness are ignored). -/
def Individual.pyEq (x y : Individual) : Bool := x.id == y.id

/-- Python `==` on individuals is the `BEq` instance used by every list
membership / `index` / `remove` operation in the embedding. -/
instance : BEq Individual := ⟨Individual.pyEq⟩

/-- `Individual.__hash__` from `src/src/individual.py`:
`hash(self) = hash(self.id)`. -/
def Individual.pyHash (x : Individual) : UInt64 := x.id.hash

/-- `Individual.__deepcopy__` from `src/src/individual.py`: copies
strategy, payoff and fitness, and *preserves the id* (the source comment
reads "Preserve ID in deep copy"). -/
def Individual.deepcopy (x : Individual) : Individual :=
  { strategy := x.strategy, payoff := x.payoff, fitness := x.fitness, id := x.id }

/-- `Individual.__deepcopy__` from `src/src/models/individual.py`: copies
strategy, payoff and fitness but does *not* pass `id` on, so the
constructor draws a fresh UUID (modelled by the `freshId` argument). -/
def Individual.deepcopyModels (x : Individual) (freshId : String) : Individual :=
  { strategy := x.strategy, payoff := x.payoff, fitness := x.fitness, id := freshId }

/-- `Individual.calculate_payoff` from `src/src/individual.py`:
`self.payoff = payoff_matrix[self.strategy.value][other.strategy.value]`.
Because `ALTRUIST.value` and `PAROCHIALIST.value` are tuples, the lookup
raises an uncaught `TypeError` (`none`) unless both strategies are
`EGOIST`; on success the source *assigns* the matrix entry (it does not
accumulate). -/
def Individual.calculatePayoff (x other : Individual)
    (matrix : List (List ℚ)) : Option Individual :=
  match pySubscript matrix x.strategy.value with
  | none => none
  | some row =>
      match pySubscript row other.strategy.value with
      | none => none
      | some v => some { x with payoff := v }

/-- `Individual.calculate_fitness` from `src/src/individual.py`:
`fitness = 1 - w + w * payoff`. -/
def Individual.calculateFitness (x : Individual) (w : ℚ) : Individual :=
  { x with fitness := 1 - w + w * x.payoff }

end LD

namespace LD

/-! ## Randomness model

A draw stream `R` stands for the successive values of `random.random()`
(each conceptually in `[0,1)`); `k` is the read offset.  Derived
primitives consume draws exactly where the Python source calls the
corresponding `random` function.  Theorems quantified over the stream
cover every possible execution path. -/

/-- Stream of uniform draws. -/
abbrev R : Type := Nat → ℚ

/-- Uniform index selection (`random.choice` / `random.randrange` on a
sequence of length `len`): `⌊u · len⌋`, clamped into range. -/
def pickIndex (u : ℚ) (len : Nat) : Nat :=
  min (Int.toNat ⌊u * (len : ℚ)⌋) (len - 1)

/-- Cumulative sums, as built by `random.choices` from its weights. -/
def cumSums (l : List ℚ) : List ℚ := (l.scanl (· + ·) 0).tail

/-- `random.choices(population, weights=probabilities, k=1)`: draw
`u · total` and take the first index whose cumulative weight exceeds it
(`bisect_right`), clamped to `len - 1` as in the CPython source.  (For
non-negative weights — the only case reachable in this engine — the
cumulative list is sorted and this is exactly the bisection result.) -/
def pickWeighted (weights : List ℚ) (u : ℚ) : Nat :=
  min ((cumSums weights).countP (fun s => decide (s ≤ u * weights.sum)))
    (weights.length - 1)

/-- Python 3 `round` on a float: round half to even. -/
def pyRound (x : ℚ) : ℤ :=
  let f := ⌊x⌋
  let frac := x - (f : ℚ)
  if frac < 1 / 2 then f
  else if 1 / 2 < frac then f + 1
  else if f % 2 = 0 then f else f + 1

/-- Swap two positions of a list (no-op when an index is out of range). -/
def listSwap {α : Type} (l : List α) (i j : Nat) : List α :=
  match l[i]?, l[j]? with
  | some a, some b => (l.set i b).set j a
  | _, _ => l

/-- Fisher–Yates as in CPython `random.shuffle`: for `i` from `len-1`
down to `1`, draw `j` uniform in `0..i` and swap positions `i` and `j`.
Consumes `len - 1` draws. -/
def pyShuffleAux {α : Type} (r : R) : Nat → List α → Nat → List α × Nat
  | 0, l, k => (l, k)
  | Nat.succ im, l, k =>
      let i := Nat.succ im
      let j := pickIndex (r k) (i + 1)
      pyShuffleAux r im (listSwap l i j) (k + 1)

/-- `random.shuffle(l)`. -/
def pyShuffle {α : Type} (l : List α) (r : R) (k : Nat) : List α × Nat :=
  pyShuffleAux r (l.length - 1) l k

/-- `random.sample(l, num)`: `num` distinct elements, modelled as
sequential uniform selection without replacement; `none` when the pool
is exhausted (Python raises `ValueError` when `num > len(l)`). -/
def pySample {α : Type} (r : R) : Nat → List α → Nat → Option (List α × Nat)
  | 0, _, k => some ([], k)
  | num + 1, l, k =>
      match l[pickIndex (r k) l.length]? with
      | none => none
      | some a =>
          match pySample r num (l.eraseIdx (pickIndex (r k) l.length)) (k + 1) with
          | none => none
          | some (rest, k2) => some (a :: rest, k2)

end LD

namespace SrcPop

/-! ## `src/src/population.py` — class `Population`

The population state is the `groups` attribute: a list of groups, each a
list of individuals.  The configuration globals imported from the absent
`src/config.py` are collected in `Cfg`. -/

open LD

/-- The `groups` attribute of `Population`. -/
abbrev Pop : Type := List (List Individual)

/-- Modelled from the spec: the scalar configuration globals that
`src/src/population.py` and `src/src/individual.py` import from
`src.config`, a file the repository does not contain (spec §6 lists
`n`, `w`, `alpha`, `kappa`, `lambda_migration`, `q`, `b`, `c`; `z` only
enters through the conflict win probability, which is modelled
separately over `ℝ`). -/
structure Cfg where
  n : Nat
  w : ℚ
  alpha : ℚ
  kappa : ℚ
  lambda_mig : ℚ
  q : ℚ
  b : ℚ
  c : ℚ

/-- `Population.is_homogeneous`: reads `self.groups[0][0].strategy`
unconditionally, then compares every individual's strategy to it.
`none` models the `IndexError` raised when there is no first group or
the first group is empty. -/
def isHomogeneous (pop : Pop) : Option Bool :=
  match pop with
  | [] => none
  | g0 :: _ =>
      match g0 with
      | [] => none
      | x :: _ =>
          some (pop.all (fun g => g.all (fun i => i.strategy == x.strategy)))

/-- `Population.get_homogeneous_strategy`: returns
`self.groups[0][0].strategy` unconditionally (same `IndexError` cases). -/
def getHomogeneousStrategy (pop : Pop) : Option Strategy :=
  match pop with
  | [] => none
  | g0 :: _ =>
      match g0 with
      | [] => none
      | x :: _ => some x.strategy

/-- `Population.get_group`: index of the first group containing an
individual equal (by id) to `ind`, else `None`. -/
def getGroup (pop : Pop) (ind : Individual) : Option Nat :=
  pop.findIdx? (fun g => g.contains ind)

/-- `Population.are_in_same_group`. -/
def areInSameGroup (pop : Pop) (x y : Individual) : Bool :=
  getGroup pop x == getGroup pop y

/-- `Population.get_flattened_population`. -/
def getFlattenedPopulation (pop : Pop) : List Individual := pop.flatten

/-- Replace every stored individual equal (by id) to `i` — in the source
a mutation of the shared object — by `f` applied to its current value. -/
def updateById (pop : Pop) (i : String) (f : Individual → Individual) : Pop :=
  pop.map (fun g => g.map (fun x => if x.id == i then f x else x))

end SrcPop

namespace SrcPop

open LD

/-- `Population.random_out_group_member`: uniform over the concatenation
of all groups not equal (as lists, element equality by id) to
`exclude_group`; `none` models the `IndexError` of `random.choice([])`. -/
def randomOutGroupMember (pop : Pop) (excludeGroup : List Individual)
    (u : ℚ) : Option Individual :=
  let outGroup := (pop.filter (fun g => !(g == excludeGroup))).flatten
  outGroup[pickIndex u outGroup.length]?

/-- `Population.random_in_group_member`: uniform over the members of
group `gi` not equal (by id) to `ind`; returns `some none` — the Python
`None` — when that pool is empty, and `none` (a crash) when `gi` is not
a valid index.  Consumes a draw only when a choice is actually made. -/
def randomInGroupMember (pop : Pop) (ind : Individual) (gi : Nat)
    (r : R) (k : Nat) : Option (Option Individual × Nat) :=
  match pop[gi]? with
  | none => none
  | some g =>
      let inGroup := g.filter (fun x => !(x == ind))
      if inGroup.isEmpty then some (none, k)
      else some (inGroup[pickIndex (r k) inGroup.length]?, (k + 1))

/-- `Population.get_random_partner`: with probability `alpha` an in-group
partner (possibly `None`), otherwise an out-group partner.  A `None`
group index (individual not found) crashes either branch. -/
def getRandomPartner (cfg : Cfg) (pop : Pop) (ind : Individual)
    (r : R) (k : Nat) : Option (Option Individual × Nat) :=
  let giQ := getGroup pop ind
  if r k < cfg.alpha then
    match giQ with
    | none => none
    | some gi => randomInGroupMember pop ind gi r (k + 1)
  else
    match giQ with
    | none => none
    | some gi =>
        match pop[gi]? with
        | none => none
        | some g =>
            match randomOutGroupMember pop g (r (k + 1)) with
            | none => none
            | some p => some (some p, k + 2)

/-- The payoff matrix chosen for one interaction:
`A_IN_MATRIX if self._get_group(individual) == self._get_group(partner)
else A_OUT_MATRIX`. -/
def interactMatrix (cfg : Cfg) (pop : Pop) (ind partner : Individual) :
    List (List ℚ) :=
  if areInSameGroup pop ind partner then A_IN_MATRIX cfg.b cfg.c
  else A_OUT_MATRIX cfg.b cfg.c

/-- One iteration of the `play_game` double loop for the individual at
position `(gi, ji)`: select a partner, pick the matrix by group
co-membership, and run both `calculate_payoff` calls in source order.  A
`None` partner makes `individual.calculate_payoff(None, …)` raise
(`none`), and a tuple-valued strategy index makes `calculate_payoff`
itself raise `TypeError` (`none`); in Python the payoff assignment
mutates the shared object, so it is written through every stored alias
(`updateById`). -/
def interactAt (cfg : Cfg) (pop : Pop) (gi ji : Nat) (r : R) (k : Nat) :
    Option (Pop × Nat) :=
  match (pop.getD gi [])[ji]? with
  | none => none
  | some ind =>
      match getRandomPartner cfg pop ind r k with
      | none => none
      | some (none, _) => none
      | some (some partner, k1) =>
          match ind.calculatePayoff partner (interactMatrix cfg pop ind partner) with
          | none => none
          | some ind1 =>
              match partner.calculatePayoff ind
                  (interactMatrix cfg pop ind partner) with
              | none => none
              | some par1 =>
                  some (updateById
                    (updateById pop ind.id (fun x => { x with payoff := ind1.payoff }))
                    partner.id (fun x => { x with payoff := par1.payoff }), k1)

/-- Fold `interactAt` over a list of positions. -/
def playGameLoop (cfg : Cfg) (r : R) :
    List (Nat × Nat) → Pop → Nat → Option (Pop × Nat)
  | [], pop, k => some (pop, k)
  | (gi, ji) :: rest, pop, k =>
      match interactAt cfg pop gi ji r k with
      | none => none
      | some (pop1, k1) => playGameLoop cfg r rest pop1 k1

/-- `Population.play_game`: every individual of every group, in order,
draws one partner and one payoff exchange.  Group sizes do not change
during the phase, so the positions visited are those of the initial
state. -/
def playGame (cfg : Cfg) (pop : Pop) (r : R) (k : Nat) : Option (Pop × Nat) :=
  let poss := (List.range pop.length).flatMap
    (fun gi => (List.range (pop.getD gi []).length).map (fun ji => (gi, ji)))
  playGameLoop cfg r poss pop k

/-- `Population.calculate_fitness`. -/
def calculateFitness (cfg : Cfg) (pop : Pop) : Pop :=
  pop.map (fun g => g.map (fun i => i.calculateFitness cfg.w))

/-- `Population.reset_payoffs_and_fitness`. -/
def resetPayoffsAndFitness (pop : Pop) : Pop :=
  pop.map (fun g => g.map (fun i => { i with payoff := 0, fitness := 0 }))

/-- `total_fitness = sum(ind.fitness for group in self.groups for ind
in group)` in `Population.select_individual_for_duplication`. -/
def totalFitnessOf (pop : Pop) : ℚ :=
  (pop.flatten.map (fun i => i.fitness)).sum

/-- The zero-total-fitness fallback of
`Population.select_individual_for_duplication`:
`random.randint(0, len(self.groups) - 1)`, then `random.choice` of that
group (a crash when the population or the drawn group is empty). -/
def selectUniformFallback (pop : Pop) (r : R) (k : Nat) :
    Option (Individual × Nat × Nat) :=
  match pop[pickIndex (r k) pop.length]? with
  | none => none
  | some g =>
      match g[pickIndex (r (k + 1)) g.length]? with
      | none => none
      | some ind => some (ind.deepcopy, pickIndex (r k) pop.length, k + 2)

/-- The fitness-weighted branch of
`Population.select_individual_for_duplication`: a `random.choices` draw
over the flattened population with weights `fitness / total_fitness`,
then `individuals.index(selected)` (first id-equal member) to recover
the parent's group index. -/
def selectWeighted (pop : Pop) (totalFitness : ℚ) (r : R) (k : Nat) :
    Option (Individual × Nat × Nat) :=
  match pop.flatten[pickWeighted
      (pop.flatten.map (fun i => i.fitness / totalFitness)) (r k)]? with
  | none => none
  | some sel =>
      match pop.flatten.findIdx? (fun x => x == sel) with
      | none => none
      | some idx0 =>
          match ((List.range pop.length).flatMap
              (fun i => (pop.getD i []).map (fun _ => i)))[idx0]? with
          | none => none
          | some sgi => some (sel.deepcopy, sgi, k + 1)

/-- `Population.select_individual_for_duplication`: if total fitness is
zero, a uniform group then a uniform member of it; otherwise a
fitness-weighted draw over the flattened population.  Returns the
deep copy (id preserved!) and the index of the parent's group. -/
def selectIndividualForDuplication (pop : Pop) (r : R) (k : Nat) :
    Option (Individual × Nat × Nat) :=
  if totalFitnessOf pop = 0 then selectUniformFallback pop r k
  else selectWeighted pop (totalFitnessOf pop) r k

/-- `[i for i in range(len(self.groups)) if i != parent_group_index]`. -/
def migrationTargets (pop : Pop) (pgi : Nat) : List Nat :=
  (List.range pop.length).filter (fun i => i ≠ pgi)

/-- `Population.reproduce`: append the copy to a uniformly chosen other
group with probability `lambda_mig`, otherwise to the parent's group. -/
def reproduce (cfg : Cfg) (pop : Pop) (r : R) (k : Nat) : Option (Pop × Nat) :=
  match selectIndividualForDuplication pop r k with
  | none => none
  | some (newInd, pgi, k1) =>
      if r k1 < cfg.lambda_mig then
        match (migrationTargets pop pgi)[pickIndex (r (k1 + 1))
            (migrationTargets pop pgi).length]? with
        | none => none
        | some t => some (pop.set t (pop.getD t [] ++ [newInd]), k1 + 2)
      else
        some (pop.set pgi (pop.getD pgi [] ++ [newInd]), k1 + 1)

end SrcPop

namespace SrcPop

open LD

/-! ## Conflict phase

The comparison `random.random() < win_probability_1` mixes a uniform
draw with the real-valued Tullock probability
`p1**(1/z) / (p1**(1/z) + p2**(1/z))`; because the exponentiation can
leave the reals (negative base, fractional exponent — see the `Conflict`
namespace below), the pipeline abstracts this single comparison as a
parameter `winCmp u p1 p2 : Option Bool`, `none` standing for the
`TypeError` Python raises when the power is complex.  The `p1 == p2`
short-circuit (probability exactly `0.5`) is kept concrete. -/

/-- The odd-count repair shared by `pair_groups` (old version) and
`pairs_conflict_groups` (new version) of `src/src/population.py`: if all
groups are flagged drop one uniformly-chosen flagged group, otherwise
with probability `0.5` add one uniformly-chosen unflagged group and with
probability `0.5` drop the flagged group at a uniform index. -/
def repairOdd (pop : Pop) (invs notInvs : List (List Individual))
    (r : R) (k : Nat) : Option (List (List Individual) × Nat) :=
  if invs.length % 2 = 0 then some (invs, k)
  else if invs.length = pop.length then
    match invs[pickIndex (r k) invs.length]? with
    | none => none
    | some g => some (invs.erase g, k + 1)
  else if r k < 1 / 2 then
    match notInvs[pickIndex (r (k + 1)) notInvs.length]? with
    | none => none
    | some g => some (invs ++ [g], k + 2)
  else
    some (invs.eraseIdx (pickIndex (r (k + 1)) invs.length), k + 2)

/-- Pair a list of groups consecutively (`(l[0],l[1]), (l[2],l[3]), …`). -/
def pairUp {α : Type} : List α → List (α × α)
  | a :: b :: rest => (a, b) :: pairUp rest
  | _ => []

/-- `Population.pair_groups` (the old conflict selector):
`round(len(groups) * kappa)` groups sampled without replacement, the
odd-count repair, then a shuffle and consecutive pairing. -/
def pairGroups (cfg : Cfg) (pop : Pop) (r : R) (k : Nat) :
    Option (List (List Individual × List Individual) × Nat) :=
  let num := pyRound ((pop.length : ℚ) * cfg.kappa)
  if num < 0 ∨ (pop.length : ℤ) < num then none
  else
    match pySample r num.toNat pop k with
    | none => none
    | some (invs, k1) =>
        let notInvs := pop.filter (fun g => !(invs.contains g))
        match repairOdd pop invs notInvs r k1 with
        | none => none
        | some (invs2, k2) =>
            let (shuffled, k3) := pyShuffle invs2 r k2
            some (pairUp shuffled, k3)

/-- The body of `Population.conflict_groups`: for each pair, compare the
member-payoff sums, decide the winner (`0.5` tie short-circuit, Tullock
comparison otherwise), and overwrite the first group equal to the loser
with a deep copy of the winner (`self.groups.index(loser)` raises when
the loser value is no longer present — `none`). -/
def conflictLoop (winCmp : ℚ → ℚ → ℚ → Option Bool) (r : R) :
    List (List Individual × List Individual) → Pop → Nat → Option (Pop × Nat)
  | [], pop, k => some (pop, k)
  | (g1, g2) :: rest, pop, k =>
      let p1 := (g1.map (fun i => i.payoff)).sum
      let p2 := (g2.map (fun i => i.payoff)).sum
      let winner1Q : Option Bool :=
        if p1 = p2 then some (decide (r k < 1 / 2)) else winCmp (r k) p1 p2
      match winner1Q with
      | none => none
      | some winner1 =>
          let loser := if winner1 then g2 else g1
          let winner := if winner1 then g1 else g2
          let newGroup := winner.map Individual.deepcopy
          match pop.findIdx? (fun g => g == loser) with
          | none => none
          | some li => conflictLoop winCmp r rest (pop.set li newGroup) (k + 1)

/-- `Population.conflict_groups` (old version). -/
def conflictGroups (cfg : Cfg) (winCmp : ℚ → ℚ → ℚ → Option Bool)
    (pop : Pop) (r : R) (k : Nat) : Option (Pop × Nat) :=
  match pairGroups cfg pop r k with
  | none => none
  | some (pairs, k1) => conflictLoop winCmp r pairs pop k1

/-- The per-member Bernoulli(`kappa`) trials of
`Population.select_conflict_groups`: returns the flagged members of one
group, consuming one draw per member. -/
def flagMembers (kappa : ℚ) (r : R) :
    List Individual → Nat → List Individual × Nat
  | [], k => ([], k)
  | x :: xs, k =>
      let (rest, k1) := flagMembers kappa r xs (k + 1)
      (if r k < kappa then x :: rest else rest, k1)

/-- `Population.select_conflict_groups` (the new conflict selector used
by `run_simulation`): *one Bernoulli(kappa) trial per individual*; a
group joins `groups_involved` as soon as one of its members is flagged. -/
def selectConflictGroups (cfg : Cfg) (pop : Pop) (r : R) (k : Nat) :
    (List Individual × List (List Individual) × List (List Individual)) × Nat :=
  let step := fun (acc : List Individual × List (List Individual) × Nat)
      (g : List Individual) =>
    let (cis, invs, k0) := acc
    let (flagged, k1) := flagMembers cfg.kappa r g k0
    (cis ++ flagged,
     if flagged.isEmpty || invs.contains g then invs else invs ++ [g], k1)
  let (cis, invs, k1) := pop.foldl step ([], [], k)
  let notInvs := pop.filter (fun g => !(invs.contains g))
  ((cis, invs, notInvs), k1)

/-- `Population.pairs_conflict_groups`: new-style selection, odd-count
repair, shuffle, consecutive pairing. -/
def pairsConflictGroups (cfg : Cfg) (pop : Pop) (r : R) (k : Nat) :
    Option ((List Individual × List (List Individual × List Individual)) × Nat) :=
  let res := selectConflictGroups cfg pop r k
  let cis := res.1.1
  let invs := res.1.2.1
  let notInvs := res.1.2.2
  let k1 := res.2
  match repairOdd pop invs notInvs r k1 with
  | none => none
  | some (invs2, k2) =>
      let (shuffled, k3) := pyShuffle invs2 r k2
      some ((cis, pairUp shuffled), k3)

/-- The body of `Population.conflict_groups_with_conflict_individuals`:
as `conflictLoop`, but each group's payoff sum only counts members that
are in `conflict_individuals` (membership by id). -/
def conflictLoopWithInds (winCmp : ℚ → ℚ → ℚ → Option Bool) (r : R)
    (cis : List Individual) :
    List (List Individual × List Individual) → Pop → Nat → Option (Pop × Nat)
  | [], pop, k => some (pop, k)
  | (g1, g2) :: rest, pop, k =>
      let p1 := (g1.map (fun i => if cis.contains i then i.payoff else 0)).sum
      let p2 := (g2.map (fun i => if cis.contains i then i.payoff else 0)).sum
      let winner1Q : Option Bool :=
        if p1 = p2 then some (decide (r k < 1 / 2)) else winCmp (r k) p1 p2
      match winner1Q with
      | none => none
      | some winner1 =>
          let loser := if winner1 then g2 else g1
          let winner := if winner1 then g1 else g2
          let newGroup := winner.map Individual.deepcopy
          match pop.findIdx? (fun g => g == loser) with
          | none => none
          | some li =>
              conflictLoopWithInds winCmp r cis rest (pop.set li newGroup) (k + 1)

/-- `Population.conflict_groups_with_conflict_individuals` (the conflict
entry point called by `run_simulation`). -/
def conflictGroupsWithConflictIndividuals (cfg : Cfg)
    (winCmp : ℚ → ℚ → ℚ → Option Bool) (pop : Pop) (r : R) (k : Nat) :
    Option (Pop × Nat) :=
  match pairsConflictGroups cfg pop r k with
  | none => none
  | some ((cis, pairs), k1) => conflictLoopWithInds winCmp r cis pairs pop k1

end SrcPop

namespace SrcPop

open LD

/-! ## Splitting phase and the simulation loop -/

/-- The fair-coin member assignment at the top of
`Population.split_group` (one draw per member, in member order). -/
def assignCoins (r : R) :
    List Individual → Nat → List Individual × List Individual × Nat
  | [], k => ([], [], k)
  | x :: xs, k =>
      let rest := assignCoins r xs (k + 1)
      if r k < 1 / 2 then (x :: rest.1, rest.2.1, rest.2.2)
      else (rest.1, x :: rest.2.1, rest.2.2)

/-- `Population.split_group` of `src/src/population.py`.  The source
*recursively retries* when one side of the coin assignment is empty —
but the `if` has no `return`, so after the recursive call comes back the
present invocation still installs its own (possibly empty) `new_group_1`
at `index` and its `new_group_2` over a uniformly chosen other slot.
The Python recursion is unbounded (it retries until the coins split);
`fuel` truncates it, `none` standing for fuel exhaustion. -/
def splitGroup (cfg : Cfg) :
    Nat → Pop → Nat → R → Nat → Option (Pop × Nat)
  | 0, _, _, _, _ => none
  | fuel + 1, pop, index, r, k =>
      let group := pop.getD index []
      let asn := assignCoins r group k
      let g1 := asn.1
      let g2 := asn.2.1
      let k1 := asn.2.2
      let afterRec : Option (Pop × Nat) :=
        if g1.length = 0 ∨ g2.length = 0 then splitGroup cfg fuel pop index r k1
        else some (pop, k1)
      match afterRec with
      | none => none
      | some (pop1, k2) =>
          let pop2 := pop1.set index g1
          let others := (List.range pop1.length).filter (fun i => i ≠ index)
          match others[pickIndex (r k2) others.length]? with
          | none => none
          | some t => some (pop2.set t g2, k2 + 1)

/-- The `enumerate` loop of `Population.split_groups`: visit indices
`0, 1, …` of the live group list; an oversized group (`len > n`) is
split with probability `q`, otherwise loses one uniformly-chosen member.
`count` is the number of indices still to visit (the group-list length
never changes underneath the loop). -/
def splitGroupsAux (cfg : Cfg) (sf : Nat) (r : R) :
    Nat → Nat → Pop → Nat → Option (Pop × Nat)
  | 0, _, pop, k => some (pop, k)
  | cnt + 1, i, pop, k =>
      let group := pop.getD i []
      if group.length > cfg.n then
        if r k < cfg.q then
          match splitGroup cfg sf pop i r (k + 1) with
          | none => none
          | some (pop1, k1) => splitGroupsAux cfg sf r cnt (i + 1) pop1 k1
        else
          splitGroupsAux cfg sf r cnt (i + 1)
            (pop.set i (group.eraseIdx (pickIndex (r (k + 1)) group.length)))
            (k + 2)
      else splitGroupsAux cfg sf r cnt (i + 1) pop k

/-- `Population.split_groups`. -/
def splitGroups (cfg : Cfg) (sf : Nat) (pop : Pop) (r : R) (k : Nat) :
    Option (Pop × Nat) :=
  splitGroupsAux cfg sf r pop.length 0 pop k

/-- One iteration of the `run_simulation` while-loop body:
`play_game; calculate_fitness; reproduce;
conflict_groups_with_conflict_individuals; split_groups;
calculate_fitness; reset_payoffs_and_fitness`. -/
def genStep (cfg : Cfg) (winCmp : ℚ → ℚ → ℚ → Option Bool) (sf : Nat)
    (pop : Pop) (r : R) (k : Nat) : Option (Pop × Nat) :=
  match playGame cfg pop r k with
  | none => none
  | some (pop1, k1) =>
      let pop2 := calculateFitness cfg pop1
      match reproduce cfg pop2 r k1 with
      | none => none
      | some (pop3, k2) =>
          match conflictGroupsWithConflictIndividuals cfg winCmp pop3 r k2 with
          | none => none
          | some (pop4, k3) =>
              match splitGroups cfg sf pop4 r k3 with
              | none => none
              | some (pop5, k4) =>
                  some (resetPayoffsAndFitness (calculateFitness cfg pop5), k4)

/-- Outcome of running `Population.run_simulation` for a bounded number
of generations: `finished s` — the loop exited because the population
was homogeneous with strategy `s`; `running` — the generation budget ran
out with the loop still going (the source loop has no step cap of its
own); `error` — a modelled Python exception. -/
inductive RunRes where
  | finished : Strategy → RunRes
  | running : RunRes
  | error : RunRes
deriving DecidableEq

/-- `Population.run_simulation`, observed for at most `fuel`
generations: `while not self.is_homogeneous(): <genStep>` and then
`return self.get_homogeneous_strategy()`. -/
def runSimulation (cfg : Cfg) (winCmp : ℚ → ℚ → ℚ → Option Bool) (sf : Nat) :
    Nat → Pop → R → Nat → RunRes
  | fuel, pop, r, k =>
      match isHomogeneous pop with
      | none => .error
      | some true =>
          match getHomogeneousStrategy pop with
          | none => .error
          | some s => .finished s
      | some false =>
          match fuel with
          | 0 => .running
          | fuel1 + 1 =>
              match genStep cfg winCmp sf pop r k with
              | none => .error
              | some (pop1, k1) => runSimulation cfg winCmp sf fuel1 pop1 r k1

end SrcPop

namespace Conflict

/-! ## The conflict win probability over ℝ

`win_probability_1 = payoff_1**(1/z) / (payoff_1**(1/z) + payoff_2**(1/z))`
appears verbatim in `Population.conflict_groups` of
`src/src/population.py`, `src/src/models/population.py` and
`src/src/classes/population.py` (guarded only by the `payoff_1 ==
payoff_2` short-circuit), while `do_conflict_step` of `simulation3.py`
guards every exponentiation with `sum > 0` and only then divides.
Python floats are modelled by `ℝ`; a `none` result stands for a value
that is not a real number (Python returns a `complex`, and the
subsequent `random.random() < win_probability_1` comparison raises
`TypeError`). -/

/-- Python `x ** e` for float `x` and float exponent of rational value
`e`: real power for a non-negative base; integer power for a negative
base and integer exponent; complex (`none`) for a negative base and
fractional exponent; `ZeroDivisionError` (`none`) for `0 ** e` with
`e < 0`. -/
noncomputable def pyPow (x : ℝ) (e : ℚ) : Option ℝ :=
  if x = 0 ∧ e < 0 then none
  else if 0 ≤ x then some (x ^ (e : ℝ))
  else if e.den = 1 then some (x ^ e.num)
  else none

/-- `win_probability_1` of `conflict_groups`: `0.5` when the two payoff
sums compare equal, otherwise the Tullock expression with no further
guard. -/
noncomputable def winProbability1 (p1 p2 : ℝ) (z : ℚ) : Option ℝ :=
  if p1 = p2 then some (1 / 2)
  else
    match pyPow p1 (1 / z), pyPow p2 (1 / z) with
    | some a, some b => some (a / (a + b))
    | _, _ => none

/-- The win probability of `do_conflict_step` in `simulation3.py`: both
sums zero → a fair coin; otherwise each sum is clamped before the
exponentiation (`sum1**(1.0/z) if sum1>0 else 0.0`) and the denominator
carries a `1e-12` cushion. -/
noncomputable def sim3WinProbability (s1 s2 : ℝ) (z : ℚ) : Option ℝ :=
  if s1 = 0 ∧ s2 = 0 then some (1 / 2)
  else
    let s1zQ := if 0 < s1 then pyPow s1 (1 / z) else some 0
    let s2zQ := if 0 < s2 then pyPow s2 (1 / z) else some 0
    match s1zQ, s2zQ with
    | some a, some b => some (a / (a + b + 1 / 1000000000000))
    | _, _ => none

end Conflict

namespace ClsPop

/-! ## `src/src/classes/population.py` — the variants that differ

Only the methods whose behaviour differs from `src/src/population.py`
are embedded: `Interaction_Manager.random_in_group_member` (which falls
back to an out-group partner for a group of fewer than two members) and
`Groups_Manager.force_splitting` / `split_group` (which force-transfer
one individual when the coin assignment leaves a side empty). -/

open LD SrcPop

/-- `Interaction_Manager.random_out_group_member`: reads
`self.groups[exclude_group_index]` (crash when out of range), then
chooses uniformly among the members of all groups not equal to it. -/
def randomOutGroupMember (pop : Pop) (gi : Nat) (u : ℚ) : Option LD.Individual :=
  match pop[gi]? with
  | none => none
  | some g => SrcPop.randomOutGroupMember pop g u

/-- `Interaction_Manager.random_in_group_member`: when the group at
`gi` has at least two members, a uniform choice among the members other
than `ind`; otherwise the documented fallback
`return self.random_out_group_member(group_index)`. -/
def randomInGroupMember (pop : Pop) (ind : LD.Individual) (gi : Nat)
    (r : R) (k : Nat) : Option (LD.Individual × Nat) :=
  if 2 ≤ (pop.getD gi []).length then
    let inGroup := (pop.getD gi []).filter (fun x => !(x == ind))
    match inGroup[pickIndex (r k) inGroup.length]? with
    | none => none
    | some p => some (p, k + 1)
  else
    match randomOutGroupMember pop gi (r k) with
    | none => none
    | some p => some (p, k + 1)

/-- `Groups_Manager.force_splitting`: when one side is empty, move one
uniformly chosen individual from the other side (`choice`, then
`pop(index(...))` — the first element equal to it is removed). -/
def forceSplitting (g1 g2 : List LD.Individual) (r : R) (k : Nat) :
    Option (List LD.Individual × List LD.Individual × Nat) :=
  if g1.length = 0 then
    match g2[pickIndex (r k) g2.length]? with
    | none => none
    | some f => some (g1 ++ [f], g2.erase f, k + 1)
  else if g2.length = 0 then
    match g1[pickIndex (r k) g1.length]? with
    | none => none
    | some f => some (g1.erase f, g2 ++ [f], k + 1)
  else some (g1, g2, k)

/-- `Groups_Manager.split_group`: coin-assign the members, repair an
empty side with `force_splitting`, install side one at `index` and side
two over a uniformly chosen other slot. -/
def splitGroup (pop : Pop) (index : Nat) (r : R) (k : Nat) :
    Option (Pop × Nat) :=
  let group := pop.getD index []
  let asn := assignCoins r group k
  let g1 := asn.1
  let g2 := asn.2.1
  let k1 := asn.2.2
  let repairedQ :=
    if g1.length = 0 ∨ g2.length = 0 then forceSplitting g1 g2 r k1
    else some (g1, g2, k1)
  match repairedQ with
  | none => none
  | some (h1, h2, k2) =>
      let pop2 := pop.set index h1
      let others := (List.range pop.length).filter (fun i => i ≠ index)
      match others[pickIndex (r k2) others.length]? with
      | none => none
      | some t => some (pop2.set t h2, k2 + 1)

end ClsPop

namespace Sim3

/-! ## `simulation3.py` — the capped replicate driver `run_simulation`

State: `population[g]` is the list of strategy tags of group `g`
(`'E'`/`'A'`/`'P'`, mapped onto `LD.Strategy`).  The real-valued
comparison `random.random() < sum1z/(sum1z+sum2z+1e-12)` inside
`do_conflict_step` is abstracted by a total parameter
`winCmp3 u s1 s2 : Bool` — total because the clamped expression is
always a real number (`Conflict.sim3WinProbability`). -/

open LD

/-- The parameters of `run_simulation` in `simulation3.py` (except
`max_steps`, which is the loop bound, and `z`, which only occurs inside
the abstracted comparison). -/
structure Cfg3 where
  m : Nat
  n : Nat
  b : ℚ
  c : ℚ
  alpha : ℚ
  w : ℚ
  kconf : ℚ
  q : ℚ
  lambd : ℚ
  reshuffle : Bool

/-- `cooperates(strategy, same_grp)` from `payoff_pair`. -/
def cooperates (s : Strategy) (sameGroup : Bool) : Bool :=
  match s with
  | .EGOIST => false
  | .ALTRUIST => true
  | .PAROCHIALIST => sameGroup

/-- `payoff_pair(s1, s2, b, c, same_group)`. -/
def payoffPair (s1 s2 : Strategy) (b c : ℚ) (sameGroup : Bool) : ℚ × ℚ :=
  let c1 := cooperates s1 sameGroup
  let c2 := cooperates s2 sameGroup
  ((if c2 then b else 0) - (if c1 then c else 0),
   (if c1 then b else 0) - (if c2 then c else 0))

/-- The population of strategy tags. -/
abbrev Pop3 : Type := List (List Strategy)

/-- The payoff table `pay[g][i]`. -/
abbrev Pay : Type := List (List ℚ)

/-- `pay[i][j] += d`. -/
def payAdd (pay : Pay) (i j : Nat) (d : ℚ) : Pay :=
  pay.set i ((pay.getD i []).set j ((pay.getD i []).getD j 0 + d))

/-- The `while partner_i == ii: partner_i = random.randrange(len)`
resampling loop (the Python loop is unbounded; `fuel` truncates it,
`none` standing for exhaustion). -/
def resampleNe (r : R) : Nat → Nat → Nat → Nat → Option (Nat × Nat)
  | 0, _, _, _ => none
  | fuel + 1, len, avoid, k =>
      let j := pickIndex (r k) len
      if j = avoid then resampleNe r fuel len avoid (k + 1) else some (j, k + 1)

/-- One iteration of the `compute_payoffs` loop for the individual at
`(gg, ii)` with strategy `st`: an in-group match when the group has at
least two members, then an out-group match when `m > 1` and the chosen
other group is non-empty. -/
def payStep (cfg : Cfg3) (fuel : Nat) (pop : Pop3) (r : R)
    (gg ii : Nat) (st : Strategy) (pay : Pay) (k : Nat) :
    Option (Pay × Nat) :=
  let glen := (pop.getD gg []).length
  let step1 : Option (Pay × Nat) :=
    if 1 < glen then
      match resampleNe r fuel glen ii k with
      | none => none
      | some (pi, k1) =>
          match (pop.getD gg [])[pi]? with
          | none => none
          | some stp =>
              let pr := payoffPair st stp cfg.b cfg.c true
              some (payAdd (payAdd pay gg ii pr.1) gg pi pr.2, k1)
    else some (pay, k)
  match step1 with
  | none => none
  | some (pay1, k1) =>
      if 1 < cfg.m then
        match resampleNe r fuel cfg.m gg k1 with
        | none => none
        | some (ogg, k2) =>
            match pop[ogg]? with
            | none => none
            | some og =>
                if 0 < og.length then
                  let pidx := pickIndex (r k2) og.length
                  match og[pidx]? with
                  | none => none
                  | some stp =>
                      let pr := payoffPair st stp cfg.b cfg.c false
                      some (payAdd (payAdd pay1 gg ii pr.1) ogg pidx pr.2, k2 + 1)
                else some (pay1, k2)
      else some (pay1, k1)

/-- Fold `payStep` over the `(gg, ii, st)` triples of `get_all_strategies`. -/
def payLoop (cfg : Cfg3) (fuel : Nat) (pop : Pop3) (r : R) :
    List (Nat × Nat × Strategy) → Pay → Nat → Option (Pay × Nat)
  | [], pay, k => some (pay, k)
  | (gg, ii, st) :: rest, pay, k =>
      match payStep cfg fuel pop r gg ii st pay k with
      | none => none
      | some (pay1, k1) => payLoop cfg fuel pop r rest pay1 k1

/-- `get_all_strategies()`: the `(group, index, strategy)` triples in
iteration order over `range(m)` (a group index beyond the population
raises — modelled by requiring `m ≤ len(population)` at the caller). -/
def allStrategies (m : Nat) (pop : Pop3) : List (Nat × Nat × Strategy) :=
  (List.range m).flatMap (fun gg =>
    ((pop.getD gg []).enum.map (fun p => (gg, p.1, p.2))))

/-- `compute_payoffs()`: a zero table, then one pass of matches. -/
def computePayoffs (cfg : Cfg3) (fuel : Nat) (pop : Pop3) (r : R) (k : Nat) :
    Option (Pay × Nat) :=
  if pop.length < cfg.m then none
  else
    let pay0 : Pay := (List.range cfg.m).map (fun gg =>
      (pop.getD gg []).map (fun _ => (0 : ℚ)))
    payLoop cfg fuel pop r (allStrategies cfg.m pop) pay0 k

/-- The cumulative walk `ssum += f_i; if ssum >= r: parent = item` of the
reproducer selection (`none` when the walk never reaches the target —
`parent` stays unbound in Python and `NameError` follows). -/
def walkParent (target : ℚ) :
    List (Nat × Nat × Strategy × ℚ) → ℚ → Option (Nat × Nat × Strategy × ℚ)
  | [], _ => none
  | x :: rest, acc =>
      let acc1 := acc + x.2.2.2
      if target ≤ acc1 then some x else walkParent target rest acc1

/-- Reproducer selection of `simulation3.py`: uniform over the flat list
when the fitness sum is below `1e-12`, otherwise the cumulative walk
against `random.random() * fitness_sum`.  One draw either way. -/
def pickParent (flat : List (Nat × Nat × Strategy × ℚ)) (u : ℚ) :
    Option (Nat × Nat × Strategy × ℚ) :=
  let fsum := (flat.map (fun x => x.2.2.2)).sum
  if fsum < 1 / 1000000000000 then flat[pickIndex u flat.length]?
  else walkParent (u * fsum) flat 0

end Sim3

namespace Sim3

open LD

/-- The per-group Bernoulli(`k`) flagging of `do_conflict_step`
(`for gg in range(m): if random.random() < k: append(gg)`). -/
def flagIndices (kconf : ℚ) (r : R) : Nat → Nat → Nat → List Nat × Nat
  | 0, _, k => ([], k)
  | left + 1, gg, k =>
      let rest := flagIndices kconf r left (gg + 1) (k + 1)
      (if r k < kconf then gg :: rest.1 else rest.1, rest.2)

/-- The pairing of `do_conflict_step`: repeatedly `pop()` two groups off
the *end* of the shuffled list; a leftover single group is ignored. -/
def pairsFromEnd {α : Type} (l : List α) : List (α × α) :=
  SrcPop.pairUp l.reverse

/-- The fight loop of `do_conflict_step`: compare the (stale) payoff
sums `sum(pay[g])`, decide the winner — fair coin when both sums are
zero, otherwise the clamped Tullock comparison `winCmp3` — and replace
the loser's strategy list by a copy of the winner's. -/
def conflictLoop3 (winCmp3 : ℚ → ℚ → ℚ → Bool) (pay : Pay) (r : R) :
    List (Nat × Nat) → Pop3 → Nat → Option (Pop3 × Nat)
  | [], pop, k => some (pop, k)
  | (g1, g2) :: rest, pop, k =>
      match pay[g1]?, pay[g2]? with
      | some row1, some row2 =>
          let sum1 := row1.sum
          let sum2 := row2.sum
          let winner1 : Bool :=
            if sum1 = 0 ∧ sum2 = 0 then decide (r k < 1 / 2)
            else winCmp3 (r k) sum1 sum2
          let winner := if winner1 then g1 else g2
          let loser := if winner1 then g2 else g1
          match pop[winner]? with
          | none => none
          | some wg =>
              conflictLoop3 winCmp3 pay r rest (pop.set loser (wg.map (fun s => s))) (k + 1)
      | _, _ => none

/-- `do_conflict_step(pay)`. -/
def doConflictStep (cfg : Cfg3) (winCmp3 : ℚ → ℚ → ℚ → Bool) (pay : Pay)
    (pop : Pop3) (r : R) (k : Nat) : Option (Pop3 × Nat) :=
  let fl := flagIndices cfg.kconf r cfg.m 0 k
  let sh := pyShuffle fl.1 r fl.2
  conflictLoop3 winCmp3 pay r (pairsFromEnd sh.1) pop sh.2

/-- The leftover loop of `reshuffle_groups`: each remaining strategy is
appended to a uniformly chosen group (`random.randrange(m)`). -/
def scatterLeftover (m : Nat) (r : R) :
    List Strategy → Pop3 → Nat → Option (Pop3 × Nat)
  | [], np, k => some (np, k)
  | st :: rest, np, k =>
      if m = 0 then none
      else
        let gi := pickIndex (r k) m
        scatterLeftover m r rest (np.set gi (np.getD gi [] ++ [st])) (k + 1)

/-- The consecutive `flat[idx:idx+step]` slices of `reshuffle_groups`. -/
def takeChunks {α : Type} : Nat → Nat → List α → List (List α)
  | 0, _, _ => []
  | gg + 1, step, flat => flat.take step :: takeChunks gg step (flat.drop step)

/-- `reshuffle_groups()`: flatten, shuffle, cut `m` slices of
`len(flat) // m`, then scatter the leftover. -/
def reshuffleGroups (cfg : Cfg3) (pop : Pop3) (r : R) (k : Nat) :
    Option (Pop3 × Nat) :=
  let flat := pop.flatten
  let sh := pyShuffle flat r k
  let step := flat.length / cfg.m
  let newpop := takeChunks cfg.m step sh.1
  let leftover := sh.1.drop (cfg.m * step)
  scatterLeftover cfg.m r leftover newpop sh.2

/-- `is_homogeneous()` of `simulation3.py`: the single strategy when the
flattened population carries exactly one, else `None` (an *empty*
population also yields `None` — the loop keeps going). -/
def isHomogeneous3 (pop : Pop3) : Option Strategy :=
  match pop.flatten with
  | [] => none
  | s :: rest => if rest.all (fun x => x == s) then some s else none

/-- `Counter(all_strats).most_common(1)[0][0]`: the most frequent
strategy; `Counter` iterates keys in first-insertion order and
`most_common` sorts stably, so ties go to the earliest-seen strategy.
`none` models the `IndexError` on an empty population. -/
def majorityStrategy (pop : Pop3) : Option Strategy :=
  let flat := pop.flatten
  let keys := flat.foldl (fun acc s => if acc.contains s then acc else acc ++ [s]) []
  let counts := keys.map (fun s => (s, flat.count s))
  match counts with
  | [] => none
  | c0 :: rest =>
      some (rest.foldl (fun best c => if best.2 < c.2 then c else best) c0).1

/-- One iteration of the `for step_i in range(max_steps)` body (payoffs,
fitness, one Moran birth, oversize split / removal, conflict, optional
reshuffle), *without* the final homogeneity check. -/
def sim3Body (cfg : Cfg3) (winCmp3 : ℚ → ℚ → ℚ → Bool) (fuel : Nat)
    (pop : Pop3) (r : R) (k : Nat) : Option (Pop3 × Nat) :=
  match computePayoffs cfg fuel pop r k with
  | none => none
  | some (pay, k1) =>
      let flat := (List.range cfg.m).flatMap (fun gg =>
        ((pop.getD gg []).enum.map (fun p =>
          (gg, p.1, p.2, (1 - cfg.w) + cfg.w * (pay.getD gg []).getD p.1 0))))
      match pickParent flat (r k1) with
      | none => none
      | some parent =>
          let pgg := parent.1
          let pstr := parent.2.2.1
          let k2 := k1 + 1
          let tgk : Nat × Nat :=
            if r k2 < cfg.lambd then (pickIndex (r (k2 + 1)) cfg.m, k2 + 2)
            else (pgg, k2 + 1)
          let tg := tgk.1
          let k3 := tgk.2
          match pop[tg]? with
          | none => none
          | some tgrp =>
              let grown := tgrp ++ [pstr]
              let pop1 := pop.set tg grown
              let afterReproQ : Option (Pop3 × Nat) :=
                if cfg.n < grown.length then
                  if r k3 < cfg.q then
                    let sh := pyShuffle grown r (k3 + 1)
                    let half := grown.length / 2
                    let pop2 := pop1.set tg (sh.1.take half)
                    let repl := pickIndex (r sh.2) cfg.m
                    some (pop2.set repl (sh.1.drop half), sh.2 + 1)
                  else
                    some (pop1.set tg
                      (grown.eraseIdx (pickIndex (r (k3 + 1)) grown.length)), k3 + 2)
                else some (pop1, k3)
              match afterReproQ with
              | none => none
              | some (pop3, k4) =>
                  match doConflictStep cfg winCmp3 pay pop3 r k4 with
                  | none => none
                  | some (pop4, k5) =>
                      if cfg.reshuffle then reshuffleGroups cfg pop4 r k5
                      else some (pop4, k5)

/-- Result of one `run_simulation` call in `simulation3.py`:
`fixed s` — the homogeneity check fired inside the loop; `capped s` —
the loop ran `max_steps` times and the plurality fallback returned `s`;
`error` — a modelled Python exception. -/
inductive Res3 where
  | fixed : Strategy → Res3
  | capped : Strategy → Res3
  | error : Res3
deriving DecidableEq

/-- The `for step_i in range(max_steps)` loop of `run_simulation`,
returning the result together with the number of generation bodies
executed.  When the loop exhausts its budget the most frequent strategy
of the current population is returned (`maj_str`). -/
def sim3Loop (cfg : Cfg3) (winCmp3 : ℚ → ℚ → ℚ → Bool) (fuel : Nat) :
    Nat → Pop3 → R → Nat → Res3 × Nat
  | 0, pop, _, _ =>
      (match majorityStrategy pop with
       | some s => Res3.capped s
       | none => Res3.error, 0)
  | steps + 1, pop, r, k =>
      match sim3Body cfg winCmp3 fuel pop r k with
      | none => (Res3.error, 1)
      | some (pop1, k1) =>
          match isHomogeneous3 pop1 with
          | some s => (Res3.fixed s, 1)
          | none =>
              let rest := sim3Loop cfg winCmp3 fuel steps pop1 r k1
              (rest.1, rest.2 + 1)

end Sim3

namespace LD

/-! ## Exact distributions

For the two claims that are about selection *probabilities* (the
conflict flagging policy and the degenerate-fitness reproduction
fallback) the relevant random fragments are re-embedded in a
weighted-list distribution monad with exact rational masses. -/

/-- A finitely supported distribution: outcomes with rational masses. -/
abbrev Distr (α : Type) : Type := List (α × ℚ)

/-- Point mass. -/
def Distr.dirac {α : Type} (a : α) : Distr α := [(a, 1)]

/-- Monadic bind: each outcome's mass scales the continuation. -/
def Distr.bind {α β : Type} (d : Distr α) (f : α → Distr β) : Distr β :=
  (d.map (fun ap => (f ap.1).map (fun bq => (bq.1, ap.2 * bq.2)))).flatten

/-- Uniform distribution on the positions of a list
(`random.choice` / `random.randint(0, len-1)`). -/
def Distr.uniform {α : Type} (l : List α) : Distr α :=
  l.map (fun a => (a, 1 / (l.length : ℚ)))

/-- A Bernoulli trial (`random.random() < p`). -/
def Distr.bernoulli (p : ℚ) : Distr Bool := [(true, p), (false, 1 - p)]

/-- Mass of the outcomes satisfying `pred`. -/
def Distr.probP {α : Type} (d : Distr α) (pred : α → Bool) : ℚ :=
  (d.map (fun ap => if pred ap.1 then ap.2 else 0)).sum

end LD

namespace SrcPop

open LD

/-- Distributional version of the inner member loop of
`Population.select_conflict_groups` (`src/src/population.py`): every
member of the group undergoes its own independent Bernoulli(`kappa`)
trial, and the flagged members are collected. -/
def flagMembersDist (kappa : ℚ) : List Individual → Distr (List Individual)
  | [] => Distr.dirac []
  | x :: xs =>
      (Distr.bernoulli kappa).bind (fun b =>
        (flagMembersDist kappa xs).bind (fun rest =>
          Distr.dirac (if b then x :: rest else rest)))

/-- Whether a given group joins `groups_involved` under
`select_conflict_groups`: it does exactly when its flagged-member list
is non-empty. -/
def srcGroupInvolvedDist (kappa : ℚ) (g : List Individual) : Distr Bool :=
  (flagMembersDist kappa g).bind (fun fl => Distr.dirac (!fl.isEmpty))

/-- Whether a given group joins `groups_involved` under `pair_groups` of
`src/src/models/population.py` (`for group in self.groups: if
random.random() < kappa: groups_involved.append(group)`): one
Bernoulli(`kappa`) trial for the whole group, whatever its size. -/
def modelsGroupInvolvedDist (kappa : ℚ) : Distr Bool := Distr.bernoulli kappa

/-- Distributional version of the zero-total-fitness fallback of
`Population.select_individual_for_duplication`
(`src/src/population.py` lines 250–254): `random.randint(0,
len(self.groups) - 1)` — a uniform group — then `random.choice` of a
uniform member of that group. -/
def zeroFitnessSelectDist (pop : Pop) : Distr Individual :=
  (Distr.uniform pop).bind Distr.uniform

/-- Distributional version of the zero-fitness fallback of
`simulation3.py` (`parent = random.choice(flat_list)`): uniform over the
flattened population. -/
def sim3ZeroFitnessSelectDist {α : Type} (flat : List α) : Distr α :=
  Distr.uniform flat

end SrcPop

/-!
# Theorems

One theorem per claim (with its witness or counterexample where the
rules require one), preceded by shared helper lemmas.
-/

open LD

/-- Helper: Python `==` on individuals unfolds to id comparison. -/
theorem Individual.beq_def (x y : Individual) : (x == y) = (x.id == y.id) := rfl

/-- **C9.** For every two `Individual` values, `==` holds exactly when
their id strings are equal — strategy, payoff and fitness never
influence equality or hashing, `hash(x) = hash(x.id)`, and
`copy.deepcopy` (src/src/individual.py) preserves the id, so a deep
copy compares equal to, hashes identically to, and is indistinguishable
from its original in list-membership lookups. -/
theorem c9_identity_equality_protocol :
    ∀ (x y : Individual) (s : Strategy) (p f : ℚ) (l : List Individual),
      ((x == y) = (x.id == y.id)) ∧
      (({ x with strategy := s, payoff := p, fitness := f } == y) = (x == y)) ∧
      (Individual.pyHash x = x.id.hash) ∧
      ((x.deepcopy == x) = true) ∧
      (Individual.pyHash x.deepcopy = Individual.pyHash x) ∧
      (l.contains x.deepcopy = l.contains x) := by
  intro x y s p f l
  refine ⟨rfl, rfl, rfl, ?_, rfl, rfl⟩
  simp [BEq.beq, Individual.deepcopy, Individual.pyEq]

/-- **C10.** `is_homogeneous` and `get_homogeneous_strategy` read
`groups[0][0]` unconditionally: whenever the first group is non-empty
both return a value (`is_homogeneous` true exactly when every
individual's strategy equals the first individual's), and whenever the
first group is empty both fail with an `IndexError` — even when other
groups are non-empty. -/
theorem c10_homogeneity_reads_first_group :
    ∀ (pop : SrcPop.Pop),
      ((pop.getD 0 []).length ≠ 0 →
        ∃ s, SrcPop.getHomogeneousStrategy pop = some s ∧
          ∃ b, SrcPop.isHomogeneous pop = some b ∧
            (b = true ↔ ∀ i ∈ pop.flatten, i.strategy = s)) ∧
      ((pop.getD 0 []).length = 0 →
        SrcPop.isHomogeneous pop = none ∧
        SrcPop.getHomogeneousStrategy pop = none) := by
  intro pop
  constructor
  · intro h
    match pop, h with
    | (x :: g0) :: rest, _ =>
        refine ⟨x.strategy, rfl, _, rfl, ?_⟩
        constructor
        · intro hall i hi
          rcases List.mem_flatten.mp hi with ⟨g, hg, hig⟩
          have h2 := (List.all_eq_true.mp ((List.all_eq_true.mp hall) g hg)) i hig
          simpa using h2
        · intro hall
          apply List.all_eq_true.mpr
          intro g hg
          apply List.all_eq_true.mpr
          intro i hig
          simpa using hall i (List.mem_flatten.mpr ⟨g, hg, hig⟩)
  · intro h
    match pop, h with
    | [], _ => exact ⟨rfl, rfl⟩
    | [] :: rest, _ => exact ⟨rfl, rfl⟩

/-- **C10 witness.** The theorem applied to a population with a
non-empty first group and to one whose first group is empty while the
second is not. -/
theorem c10_homogeneity_reads_first_group_witness :
    (∃ s, SrcPop.getHomogeneousStrategy
        [[⟨Strategy.EGOIST, 0, 0, "w1"⟩], [⟨Strategy.EGOIST, 0, 0, "w2"⟩]] = some s ∧
      ∃ b, SrcPop.isHomogeneous
          [[⟨Strategy.EGOIST, 0, 0, "w1"⟩], [⟨Strategy.EGOIST, 0, 0, "w2"⟩]] = some b ∧
        (b = true ↔ ∀ i ∈ ([[⟨Strategy.EGOIST, 0, 0, "w1"⟩],
            [⟨Strategy.EGOIST, 0, 0, "w2"⟩]] : SrcPop.Pop).flatten,
          i.strategy = s)) ∧
    (SrcPop.isHomogeneous [[], [⟨Strategy.EGOIST, 0, 0, "w2"⟩]] = none ∧
      SrcPop.getHomogeneousStrategy [[], [⟨Strategy.EGOIST, 0, 0, "w2"⟩]] = none) :=
  ⟨(c10_homogeneity_reads_first_group
      [[⟨Strategy.EGOIST, 0, 0, "w1"⟩], [⟨Strategy.EGOIST, 0, 0, "w2"⟩]]).1 (by decide),
   (c10_homogeneity_reads_first_group
      [[], [⟨Strategy.EGOIST, 0, 0, "w2"⟩]]).2 (by decide)⟩

/-- **C2 (amended).** `do_conflict_step` of `simulation3.py` applies a
clamp policy — a non-positive sum contributes `0` instead of being
raised to `1/z` — so its win probability is a real number for *all*
real payoff sums; the `conflict_groups` formula shared by the class
variants short-circuits only *equal* sums, and stays real whenever both
sums are non-negative (`z > 0`). -/
theorem c2_amended_clamp_policy :
    (∀ (s1 s2 : ℝ) (z : ℚ), (Conflict.sim3WinProbability s1 s2 z).isSome = true) ∧
    (∀ (p1 p2 : ℝ) (z : ℚ), 0 < z → 0 ≤ p1 → 0 ≤ p2 →
      (Conflict.winProbability1 p1 p2 z).isSome = true) := by
  constructor
  · intro s1 s2 z
    unfold Conflict.sim3WinProbability
    by_cases h0 : s1 = 0 ∧ s2 = 0
    · simp [h0]
    · rw [if_neg h0]
      have pow1 : (if 0 < s1 then Conflict.pyPow s1 (1 / z) else some 0).isSome = true := by
        by_cases h1 : 0 < s1
        · rw [if_pos h1]
          unfold Conflict.pyPow
          rw [if_neg (by rintro ⟨he, _⟩; exact absurd he (ne_of_gt h1)),
            if_pos (le_of_lt h1)]
          rfl
        · rw [if_neg h1]; rfl
      have pow2 : (if 0 < s2 then Conflict.pyPow s2 (1 / z) else some 0).isSome = true := by
        by_cases h2 : 0 < s2
        · rw [if_pos h2]
          unfold Conflict.pyPow
          rw [if_neg (by rintro ⟨he, _⟩; exact absurd he (ne_of_gt h2)),
            if_pos (le_of_lt h2)]
          rfl
        · rw [if_neg h2]; rfl
      rcases Option.isSome_iff_exists.mp pow1 with ⟨a, ha⟩
      rcases Option.isSome_iff_exists.mp pow2 with ⟨b, hb⟩
      simp only [ha, hb]
      rfl
  · intro p1 p2 z hz h1 h2
    unfold Conflict.winProbability1
    by_cases heq : p1 = p2
    · simp [heq]
    · rw [if_neg heq]
      have hzq : ¬ ((1 : ℚ) / z < 0) := by
        have : (0 : ℚ) < 1 / z := by positivity
        linarith
      have pow1 : (Conflict.pyPow p1 (1 / z)).isSome = true := by
        unfold Conflict.pyPow
        rw [if_neg (by rintro ⟨_, hlt⟩; exact hzq hlt), if_pos h1]
        rfl
      have pow2 : (Conflict.pyPow p2 (1 / z)).isSome = true := by
        unfold Conflict.pyPow
        rw [if_neg (by rintro ⟨_, hlt⟩; exact hzq hlt), if_pos h2]
        rfl
      rcases Option.isSome_iff_exists.mp pow1 with ⟨a, ha⟩
      rcases Option.isSome_iff_exists.mp pow2 with ⟨b, hb⟩
      simp only [ha, hb]
      rfl

/-- **C2 witness.** The amended theorem applied to a negative sum paired
with a positive one (simulation3's clamp) and to a pair of non-negative
sums (the shared `conflict_groups` formula). -/
theorem c2_amended_clamp_policy_witness :
    (Conflict.sim3WinProbability (-3) 5 2).isSome = true ∧
    (Conflict.winProbability1 0 1 2).isSome = true :=
  ⟨c2_amended_clamp_policy.1 (-3) 5 2,
   c2_amended_clamp_policy.2 0 1 2 (by norm_num) (by norm_num) (by norm_num)⟩

/-- **C2 counterexample.** The claim says *every* pair of real payoff
sums is resolved without leaving the reals in all conflict variants.
But `conflict_groups` (src/src/population.py and the models/classes
variants) guards only the equal-sums case: with `S1 = -1`, `S2 = 1`,
`z = 2` it computes `(-1) ** 0.5`, a complex number — the subsequent
comparison with `random.random()` raises `TypeError`. -/
theorem c2_counterexample_negative_sum_not_real :
    Conflict.winProbability1 (-1) 1 2 = none := by
  unfold Conflict.winProbability1 Conflict.pyPow
  norm_num

/-- A concrete configuration for the concrete executions below, inside
the ranges of spec §6: `n = 2`, `w = 0`, `alpha = 1`, `kappa = 0`,
`lambda_migration = 0`, `q = 0`, `b = 2`, `c = 1`. -/
def cfgEx : SrcPop.Cfg :=
  { n := 2, w := 0, alpha := 1, kappa := 0, lambda_mig := 0, q := 0, b := 2, c := 1 }

/-- The all-zeros draw stream (`random.random()` returning `0.0` at
every call — a possible execution). -/
def zeroR : LD.R := fun _ => 0

/-- A winner-comparison oracle for runs in which no conflict pair ever
forms (it is never consulted). -/
def winCmpNone : ℚ → ℚ → ℚ → Option Bool := fun _ _ _ => none

/-- Helper: a successfully selected duplication candidate is an exact
copy of a member of the flattened population (src deep copy preserves
every field, id included). -/
theorem select_for_duplication_mem (pop : SrcPop.Pop) (r : LD.R) (k : Nat)
    (ind : Individual) (gi k1 : Nat)
    (h : SrcPop.selectIndividualForDuplication pop r k = some (ind, gi, k1)) :
    ind ∈ pop.flatten := by
  unfold SrcPop.selectIndividualForDuplication at h
  split at h
  · -- zero-total-fitness branch
    unfold SrcPop.selectUniformFallback at h
    split at h
    · exact absurd h (by simp)
    next g hg =>
      split at h
      · exact absurd h (by simp)
      next y hy =>
        simp only [Option.some.injEq, Prod.mk.injEq] at h
        obtain ⟨h1, _, _⟩ := h
        have hyg : y ∈ g := List.getElem?_mem hy
        have hgp : g ∈ pop := List.getElem?_mem hg
        have hdc : Individual.deepcopy y = y := rfl
        rw [← h1, hdc]
        exact List.mem_flatten.mpr ⟨g, hgp, hyg⟩
  · -- fitness-weighted branch
    unfold SrcPop.selectWeighted at h
    split at h
    · exact absurd h (by simp)
    next sel hsel =>
      split at h
      · exact absurd h (by simp)
      next idx0 hidx0 =>
        split at h
        · exact absurd h (by simp)
        next sgi hsgi =>
          simp only [Option.some.injEq, Prod.mk.injEq] at h
          obtain ⟨h1, _, _⟩ := h
          have hdc : Individual.deepcopy sel = sel := rfl
          rw [← h1, hdc]
          exact List.getElem?_mem hsel

/-- **C3 (amended).** The offspring inserted by the reproduction phase
is an *exact* copy of the fitness-selected parent: same strategy, but
also the parent's current payoff, fitness and — in
`src/src/individual.py` — the parent's id, so it is not a new identity
and its payoff/fitness are not reset to 0.  Formally: a successful
`reproduce` appends to one group an individual equal (field by field)
to an existing member of the population. -/
theorem c3_amended_offspring_is_exact_copy :
    ∀ (cfg : SrcPop.Cfg) (pop pop2 : SrcPop.Pop) (r : LD.R) (k k2 : Nat),
      SrcPop.reproduce cfg pop r k = some (pop2, k2) →
      ∃ t x, x ∈ pop.flatten ∧ pop2 = pop.set t (pop.getD t [] ++ [x]) := by
  intro cfg pop pop2 r k k2 h
  unfold SrcPop.reproduce at h
  split at h
  · exact absurd h (by simp)
  next newInd pgi k1 hsel =>
    have hmem := select_for_duplication_mem pop r k newInd pgi k1 hsel
    split at h
    · -- migration branch
      split at h
      · exact absurd h (by simp)
      next t ht =>
        refine ⟨t, newInd, hmem, ?_⟩
        have := Option.some.inj h
        exact (congrArg Prod.fst this).symm
    · -- stay-at-home branch
      refine ⟨pgi, newInd, hmem, ?_⟩
      have := Option.some.inj h
      exact (congrArg Prod.fst this).symm

/-- **C3 amended witness.** The amended theorem applied to a concrete
two-group population with all-zero fitness. -/
theorem c3_amended_offspring_is_exact_copy_witness :
    ∃ t x, x ∈ ([[⟨Strategy.EGOIST, 3, 0, "par"⟩],
                 [⟨Strategy.ALTRUIST, 5, 0, "oth"⟩]] : SrcPop.Pop).flatten ∧
      [[⟨Strategy.EGOIST, 3, 0, "par"⟩, ⟨Strategy.EGOIST, 3, 0, "par"⟩],
       [⟨Strategy.ALTRUIST, 5, 0, "oth"⟩]] =
        ([[⟨Strategy.EGOIST, 3, 0, "par"⟩],
          [⟨Strategy.ALTRUIST, 5, 0, "oth"⟩]] : SrcPop.Pop).set t
          (([[⟨Strategy.EGOIST, 3, 0, "par"⟩],
             [⟨Strategy.ALTRUIST, 5, 0, "oth"⟩]] : SrcPop.Pop).getD t [] ++ [x]) :=
  c3_amended_offspring_is_exact_copy cfgEx _ _ zeroR 0 3 (by
    norm_num [SrcPop.reproduce, SrcPop.selectIndividualForDuplication,
      SrcPop.totalFitnessOf, SrcPop.selectUniformFallback, SrcPop.selectWeighted,
      SrcPop.migrationTargets, LD.pickIndex, cfgEx, zeroR, Individual.deepcopy])

/-- **C3 counterexample.** The claim requires the inserted offspring to
carry a *new* id and payoff and fitness both 0.  On the concrete
population below the appended clone keeps the parent's id `"par"` and
its payoff 3 (the src `__deepcopy__` copies payoff/fitness and
preserves the id; nothing resets them before insertion). -/
theorem c3_counterexample_clone_keeps_id_and_payoff :
    SrcPop.reproduce cfgEx
        [[⟨Strategy.EGOIST, 3, 0, "par"⟩], [⟨Strategy.ALTRUIST, 5, 0, "oth"⟩]]
        zeroR 0 =
      some ([[⟨Strategy.EGOIST, 3, 0, "par"⟩, ⟨Strategy.EGOIST, 3, 0, "par"⟩],
             [⟨Strategy.ALTRUIST, 5, 0, "oth"⟩]], 3) ∧
    (Individual.deepcopy ⟨Strategy.EGOIST, 3, 0, "par"⟩).id = "par" ∧
    (Individual.deepcopy ⟨Strategy.EGOIST, 3, 0, "par"⟩).payoff ≠ 0 := by
  refine ⟨?_, rfl, by norm_num [Individual.deepcopy]⟩
  norm_num [SrcPop.reproduce, SrcPop.selectIndividualForDuplication,
    SrcPop.totalFitnessOf, SrcPop.selectUniformFallback, SrcPop.selectWeighted,
    SrcPop.migrationTargets, LD.pickIndex, cfgEx, zeroR, Individual.deepcopy]

/-- Helper: a uniform index draw on a non-empty list is in range. -/
theorem pickIndex_lt (u : ℚ) (len : Nat) (h : 0 < len) :
    LD.pickIndex u len < len := by
  unfold LD.pickIndex
  exact lt_of_le_of_lt (Nat.min_le_right _ _) (Nat.sub_lt h Nat.one_pos)

/-- **C7 (amended).** The "fewer than two members" fallback exists only
in `src/src/classes/population.py`: there `random_in_group_member`
returns an out-group partner whenever the group is smaller than 2; in
`src/src/population.py` the same situation returns Python `None` — no
fallback, and the individual's pass then fails instead of producing a
payoff exchange. -/
theorem c7_amended_fallback_only_in_classes :
    ∀ (pop : SrcPop.Pop) (ind : Individual) (gi : Nat) (r : LD.R) (k : Nat),
      (∀ (h1 : gi < pop.length), (pop.getD gi []).length < 2 →
        ((pop.filter (fun g => !(g == pop[gi]))).flatten).length ≠ 0 →
        ∃ p, ClsPop.randomInGroupMember pop ind gi r k = some (p, k + 1) ∧
          p ∈ (pop.filter (fun g => !(g == pop[gi]))).flatten) ∧
      ((pop.getD gi []).filter (fun x => !(x == ind)) = [] →
        (∃ g, pop[gi]? = some g) →
        SrcPop.randomInGroupMember pop ind gi r k = some (none, k)) := by
  intro pop ind gi r k
  constructor
  · intro h1 h2 h3
    unfold ClsPop.randomInGroupMember
    rw [if_neg (by omega)]
    unfold ClsPop.randomOutGroupMember SrcPop.randomOutGroupMember
    simp only [List.getElem?_eq_getElem h1]
    have hog : 0 < ((pop.filter (fun g => !(g == pop[gi]))).flatten).length :=
      Nat.pos_of_ne_zero h3
    simp only [List.getElem?_eq_getElem (pickIndex_lt (r k) _ hog)]
    exact ⟨_, rfl, List.getElem_mem _⟩
  · intro hempty hg
    obtain ⟨g, hg⟩ := hg
    unfold SrcPop.randomInGroupMember
    rw [hg]
    have : g.filter (fun x => !(x == ind)) = [] := by
      have : pop.getD gi [] = g := by
        simp [List.getD_eq_getElem?_getD, hg]
      rw [← this]; exact hempty
    simp [this]

/-- **C7 amended witness.** The amended theorem applied to a singleton
first group: the classes variant returns an out-group partner, the src
variant returns `None`. -/
theorem c7_amended_fallback_only_in_classes_witness :
    (∃ p, ClsPop.randomInGroupMember
        [[⟨Strategy.EGOIST, 0, 0, "solo"⟩],
         [⟨Strategy.EGOIST, 0, 0, "o1"⟩, ⟨Strategy.EGOIST, 0, 0, "o2"⟩]]
        ⟨Strategy.EGOIST, 0, 0, "solo"⟩ 0 zeroR 0 = some (p, 0 + 1) ∧
      p ∈ (([[⟨Strategy.EGOIST, 0, 0, "solo"⟩],
             [⟨Strategy.EGOIST, 0, 0, "o1"⟩, ⟨Strategy.EGOIST, 0, 0, "o2"⟩]] :
          SrcPop.Pop).filter (fun g =>
            !(g == ([[⟨Strategy.EGOIST, 0, 0, "solo"⟩],
                     [⟨Strategy.EGOIST, 0, 0, "o1"⟩,
                      ⟨Strategy.EGOIST, 0, 0, "o2"⟩]] : SrcPop.Pop)[0]))).flatten) ∧
    SrcPop.randomInGroupMember
        [[⟨Strategy.EGOIST, 0, 0, "solo"⟩],
         [⟨Strategy.EGOIST, 0, 0, "o1"⟩, ⟨Strategy.EGOIST, 0, 0, "o2"⟩]]
        ⟨Strategy.EGOIST, 0, 0, "solo"⟩ 0 zeroR 0 = some (none, 0) :=
  ⟨(c7_amended_fallback_only_in_classes _ _ 0 zeroR 0).1 (by decide) (by decide)
      (by decide),
   (c7_amended_fallback_only_in_classes _ _ 0 zeroR 0).2 (by decide)
      ⟨[⟨Strategy.EGOIST, 0, 0, "solo"⟩], by decide⟩⟩

/-- **C7 counterexample.** The claim says every individual whose
in-group draw hits a `< 2`-member group still gets exactly one payoff
exchange through an out-group fallback.  In `src/src/population.py`
the in-group draw returns `None` and the play-game pass for that
individual raises (`None.strategy`) — no fallback, no exchange. -/
theorem c7_counterexample_no_fallback_in_src :
    SrcPop.randomInGroupMember
        [[⟨Strategy.EGOIST, 0, 0, "solo"⟩],
         [⟨Strategy.EGOIST, 0, 0, "o1"⟩, ⟨Strategy.EGOIST, 0, 0, "o2"⟩]]
        ⟨Strategy.EGOIST, 0, 0, "solo"⟩ 0 zeroR 0 = some (none, 0) ∧
    SrcPop.interactAt cfgEx
        [[⟨Strategy.EGOIST, 0, 0, "solo"⟩],
         [⟨Strategy.EGOIST, 0, 0, "o1"⟩, ⟨Strategy.EGOIST, 0, 0, "o2"⟩]]
        0 0 zeroR 0 = none := by
  constructor
  · decide
  · norm_num [SrcPop.interactAt, SrcPop.getRandomPartner, SrcPop.getGroup,
      SrcPop.randomInGroupMember, cfgEx, zeroR, Individual.beq_def]

/-- Helper computation: the candidate "other slots" of a two-group
population when splitting index 0. -/
theorem range2_filter_ne0 :
    List.filter (fun i => !decide (i = 0)) (List.range 2) = [1] := by decide

/-- A draw stream whose first two coins send both members to side two,
and whose third draw repairs the retry (`random.random()` values
`1/2, 1/2, 0, 1/2, 1/2, …` — a possible execution). -/
def rSplit : LD.R := fun i => if i = 2 then 0 else 1 / 2

/-- **C6.** `split_group` of `src/src/population.py` on a two-member
group whose coin flips all land on side two: the recursive retry
succeeds (and installs `[["a"], ["b"]]`), but because the `if` has no
`return`, the outer invocation then installs its own *empty*
`new_group_1` at index 0 and its full `new_group_2` over the other
slot — an empty group enters the population, exactly what the claim
(and `force_splitting` of `src/src/classes/population.py`, shown on the
same coins in the second conjunct) rules out. -/
theorem c6_failing_split_installs_empty_group :
    SrcPop.splitGroup cfgEx 2
        [[⟨Strategy.EGOIST, 0, 0, "a"⟩, ⟨Strategy.EGOIST, 0, 0, "b"⟩],
         [⟨Strategy.EGOIST, 0, 0, "c"⟩]] 0 rSplit 0 =
      some ([[], [⟨Strategy.EGOIST, 0, 0, "a"⟩, ⟨Strategy.EGOIST, 0, 0, "b"⟩]], 6) ∧
    ClsPop.splitGroup
        [[⟨Strategy.EGOIST, 0, 0, "a"⟩, ⟨Strategy.EGOIST, 0, 0, "b"⟩],
         [⟨Strategy.EGOIST, 0, 0, "c"⟩]] 0 rSplit 0 =
      some ([[⟨Strategy.EGOIST, 0, 0, "a"⟩], [⟨Strategy.EGOIST, 0, 0, "b"⟩]], 4) := by
  constructor
  · norm_num [SrcPop.splitGroup, SrcPop.assignCoins, LD.pickIndex, rSplit,
      range2_filter_ne0]
  · norm_num [ClsPop.splitGroup, ClsPop.forceSplitting, SrcPop.assignCoins,
      LD.pickIndex, rSplit, Individual.beq_def, range2_filter_ne0]
    decide

/-- Helper: probability mass of a cons cell. -/
theorem Distr.probP_cons {α : Type} (a : α × ℚ) (d : Distr α) (pred : α → Bool) :
    Distr.probP (a :: d) pred =
      (if pred a.1 then a.2 else 0) + Distr.probP d pred := rfl

/-- Helper: probability mass distributes over list append. -/
theorem Distr.probP_append {α : Type} (d1 d2 : Distr α) (pred : α → Bool) :
    Distr.probP (d1 ++ d2) pred = Distr.probP d1 pred + Distr.probP d2 pred := by
  unfold Distr.probP
  rw [List.map_append, List.sum_append]

/-- Helper: pointwise equal predicates have equal probability. -/
theorem Distr.probP_congr {α : Type} (d : Distr α) (p1 p2 : α → Bool)
    (h : ∀ a, p1 a = p2 a) : Distr.probP d p1 = Distr.probP d p2 := by
  unfold Distr.probP
  congr 1
  apply List.map_congr_left
  intro ap _
  rw [h]

/-- Helper: scaling all masses scales the probability. -/
theorem Distr.probP_scaleMap {β : Type} (l : Distr β) (p : ℚ) (pred : β → Bool) :
    Distr.probP (l.map (fun bq => (bq.1, p * bq.2))) pred =
      p * Distr.probP l pred := by
  induction l with
  | nil => simp [Distr.probP]
  | cons hd tl ih =>
      rw [List.map_cons, Distr.probP_cons, ih, Distr.probP_cons]
      by_cases h : pred hd.1
      · simp [h]; ring
      · simp [h]

/-- Helper: the probability after a monadic bind is the mass-weighted
average of the continuation's probabilities. -/
theorem Distr.probP_bind {α β : Type} (d : Distr α) (f : α → Distr β)
    (pred : β → Bool) :
    Distr.probP (d.bind f) pred =
      (d.map (fun ap => ap.2 * Distr.probP (f ap.1) pred)).sum := by
  induction d with
  | nil => rfl
  | cons hd tl ih =>
      unfold Distr.bind at ih ⊢
      rw [List.map_cons, List.flatten_cons, Distr.probP_append, ih,
        Distr.probP_scaleMap, List.map_cons, List.sum_cons]

/-- Helper: binding into a point mass just transports the predicate. -/
theorem Distr.probP_bind_dirac {α β : Type} (d : Distr α) (h : α → β)
    (pred : β → Bool) :
    Distr.probP (Distr.bind d (fun a => Distr.dirac (h a))) pred =
      Distr.probP d (fun a => pred (h a)) := by
  rw [Distr.probP_bind]
  unfold Distr.probP
  congr 1
  apply List.map_congr_left
  intro ap _
  show ap.2 * Distr.probP (Distr.dirac (h ap.1)) pred = _
  unfold Distr.dirac Distr.probP
  by_cases hp : pred (h ap.1) <;> simp [hp]

/-- Helper: probability under a constant-mass map. -/
theorem Distr.probP_constMap {α : Type} (l : List α) (c : ℚ) (pred : α → Bool) :
    Distr.probP (l.map (fun a => (a, c))) pred = c * (l.countP pred : ℚ) := by
  induction l with
  | nil => simp [Distr.probP]
  | cons hd tl ih =>
      rw [List.map_cons, Distr.probP_cons, ih, List.countP_cons]
      by_cases h : pred hd
      · simp [h]; ring
      · simp [h]

/-- Helper: a uniform draw hits `pred` with probability `count / len`. -/
theorem Distr.probP_uniform {α : Type} (l : List α) (pred : α → Bool) :
    Distr.probP (Distr.uniform l) pred = (l.countP pred : ℚ) / l.length := by
  unfold Distr.uniform
  rw [Distr.probP_constMap]
  ring

/-- Helper: one member trial splits the flagged-list probability into
the flagged and unflagged continuations. -/
theorem flagMembers_bind_prob (κ : ℚ) (x : Individual) (xs : List Individual)
    (pred : List Individual → Bool) :
    Distr.probP (SrcPop.flagMembersDist κ (x :: xs)) pred =
      κ * Distr.probP (SrcPop.flagMembersDist κ xs) (fun rest => pred (x :: rest)) +
      (1 - κ) * Distr.probP (SrcPop.flagMembersDist κ xs) pred := by
  conv_lhs => rw [SrcPop.flagMembersDist.eq_2]
  rw [Distr.probP_bind]
  unfold Distr.bernoulli
  rw [List.map_cons, List.map_cons, List.map_nil, List.sum_cons, List.sum_cons,
    List.sum_nil, Distr.probP_bind_dirac, Distr.probP_bind_dirac]
  have h1 : (fun (a : List Individual) =>
      pred (if (true : Bool) = true then x :: a else a)) = fun a => pred (x :: a) := by
    funext a; simp
  have h2 : (fun (a : List Individual) =>
      pred (if (false : Bool) = true then x :: a else a)) = fun a => pred a := by
    funext a; simp
  rw [h1, h2]
  ring

/-- Helper: the member-trial pass has total mass one. -/
theorem flagMembers_mass (κ : ℚ) (g : List Individual) :
    Distr.probP (SrcPop.flagMembersDist κ g) (fun _ => true) = 1 := by
  induction g with
  | nil => simp [SrcPop.flagMembersDist, Distr.dirac, Distr.probP]
  | cons x xs ih =>
      simp only [flagMembers_bind_prob]
      rw [ih]
      ring

/-- Helper: under per-member Bernoulli(κ) trials, the flagged-member
list is non-empty with probability `1 - (1-κ)^size`. -/
theorem flagMembers_nonempty_prob (κ : ℚ) (g : List Individual) :
    Distr.probP (SrcPop.flagMembersDist κ g) (fun fl => !fl.isEmpty) =
      1 - (1 - κ) ^ g.length := by
  induction g with
  | nil => simp [SrcPop.flagMembersDist, Distr.dirac, Distr.probP]
  | cons x xs ih =>
      simp only [flagMembers_bind_prob]
      have h1 : (fun (rest : List Individual) => !(List.isEmpty (x :: rest))) =
          fun (_ : List Individual) => true := by
        funext a; simp
      rw [h1, flagMembers_mass, ih]
      simp only [List.length_cons]
      ring

/-- Helper: Python `==` on individuals is reflexive. -/
theorem Individual.beq_refl (x : Individual) : (x == x) = true := by
  simp [Individual.beq_def]

/-- Helper: Python `==` on groups (lists of individuals) is reflexive. -/
theorem group_beq_refl (g : List Individual) : (g == g) = true := by
  induction g with
  | nil => rfl
  | cons x xs ih =>
      show List.beq (x :: xs) (x :: xs) = true
      rw [List.beq_cons₂, Individual.beq_refl]
      simpa using ih

/-- Helper: `list.remove(x)` (modelled by `List.erase`) shortens the
list by one when it holds an element `==`-equal to `x`. -/
theorem length_erase_of_beq_mem {α : Type} [BEq α] :
    ∀ (l : List α) (a : α), (∃ x ∈ l, (x == a) = true) →
      (l.erase a).length + 1 = l.length := by
  intro l a
  induction l with
  | nil =>
      rintro ⟨x, hx, _⟩
      cases hx
  | cons hd tl ih =>
      rintro ⟨x, hx, hbeq⟩
      by_cases hhd : (hd == a) = true
      · rw [List.erase_cons, if_pos hhd]
        rfl
      · rw [List.erase_cons, if_neg hhd]
        simp only [List.length_cons]
        have hex : ∃ y ∈ tl, (y == a) = true := by
          rcases List.mem_cons.mp hx with h | h
          · subst h; exact absurd hbeq hhd
          · exact ⟨x, h, hbeq⟩
        have := ih hex
        omega

/-- Helper: the odd-count repair of the conflict selectors always
delivers an even number of contesting groups. -/
theorem repairOdd_even (pop : SrcPop.Pop)
    (invs notInvs invs2 : List (List Individual)) (r : LD.R) (k k2 : Nat)
    (h : SrcPop.repairOdd pop invs notInvs r k = some (invs2, k2)) :
    invs2.length % 2 = 0 := by
  unfold SrcPop.repairOdd at h
  split at h
  · next heven =>
      simp only [Option.some.injEq, Prod.mk.injEq] at h
      rw [← h.1]
      exact heven
  · next hodd =>
      split at h
      · next hall =>
          split at h
          · exact absurd h (by simp)
          next g hg =>
            simp only [Option.some.injEq, Prod.mk.injEq] at h
            have herase := length_erase_of_beq_mem invs g
              ⟨g, List.getElem?_mem hg, group_beq_refl g⟩
            rw [← h.1]
            omega
      · next hnotall =>
          split at h
          · next hcoin =>
              split at h
              · exact absurd h (by simp)
              next g hg =>
                simp only [Option.some.injEq, Prod.mk.injEq] at h
                rw [← h.1]
                simp only [List.length_append, List.length_cons, List.length_nil]
                omega
          · next hcoin =>
              simp only [Option.some.injEq, Prod.mk.injEq] at h
              have hlt : LD.pickIndex (r (k + 1)) invs.length < invs.length :=
                pickIndex_lt _ _ (by omega)
              have := List.length_eraseIdx_of_lt hlt
              rw [← h.1]
              omega

/-- **C5 (amended).** The contesting-group selection differs between
variants: `pair_groups` of `src/src/models/population.py` flags each
group by one Bernoulli(kappa) trial (probability `kappa` regardless of
size), while `select_conflict_groups` of `src/src/population.py` — the
selector its `run_simulation` actually uses — runs one Bernoulli(kappa)
trial *per individual* and flags a group when any member's trial
succeeds, i.e. with probability `1 - (1-kappa)^size`.  The odd-count
repair is as the claim describes, and always leaves an even number of
contesting groups. -/
theorem c5_amended_flagging_per_individual :
    ∀ (κ : ℚ) (g : List Individual) (pop : SrcPop.Pop)
      (invs notInvs invs2 : List (List Individual)) (r : LD.R) (k k2 : Nat),
      Distr.probP (SrcPop.modelsGroupInvolvedDist κ) (fun b => b) = κ ∧
      Distr.probP (SrcPop.srcGroupInvolvedDist κ g) (fun b => b) =
        1 - (1 - κ) ^ g.length ∧
      (SrcPop.repairOdd pop invs notInvs r k = some (invs2, k2) →
        invs2.length % 2 = 0) := by
  intro κ g pop invs notInvs invs2 r k k2
  refine ⟨?_, ?_, repairOdd_even pop invs notInvs invs2 r k k2⟩
  · simp [SrcPop.modelsGroupInvolvedDist, Distr.bernoulli, Distr.probP]
  · unfold SrcPop.srcGroupInvolvedDist
    rw [Distr.probP_bind_dirac]
    have hpred : (fun (a : List Individual) => (!a.isEmpty) = true) =
        fun a => (!a.isEmpty) = true := rfl
    rw [flagMembers_nonempty_prob]

/-- **C5 amended witness.** The amended theorem applied at `κ = 1/3`, a
two-member group, and an already-even (empty) flagged set. -/
theorem c5_amended_flagging_per_individual_witness :
    Distr.probP (SrcPop.modelsGroupInvolvedDist (1 / 3)) (fun b => b) = 1 / 3 ∧
    Distr.probP (SrcPop.srcGroupInvolvedDist (1 / 3)
        [⟨Strategy.EGOIST, 0, 0, "m1"⟩, ⟨Strategy.EGOIST, 0, 0, "m2"⟩])
        (fun b => b) =
      1 - (1 - 1 / 3) ^
        ([⟨Strategy.EGOIST, 0, 0, "m1"⟩,
          ⟨Strategy.EGOIST, 0, 0, "m2"⟩] : List Individual).length ∧
    ([] : List (List Individual)).length % 2 = 0 :=
  ⟨(c5_amended_flagging_per_individual (1 / 3) [] [] [] [] [] zeroR 0 0).1,
   (c5_amended_flagging_per_individual (1 / 3)
      [⟨Strategy.EGOIST, 0, 0, "m1"⟩, ⟨Strategy.EGOIST, 0, 0, "m2"⟩]
      [] [] [] [] zeroR 0 0).2.1,
   (c5_amended_flagging_per_individual (1 / 3) [] [] [] [] [] zeroR 0 0).2.2 rfl⟩

/-- **C5 counterexample.** The claim says each group is flagged by one
Bernoulli(kappa) trial, so a group would be flagged with probability
`kappa`.  Under `select_conflict_groups` (the selector used by
`run_simulation` in src/src/population.py) a two-member group at
`kappa = 1/2` is flagged with probability `3/4 ≠ 1/2`. -/
theorem c5_counterexample_two_member_group_flag_probability :
    Distr.probP (SrcPop.srcGroupInvolvedDist (1 / 2)
        [⟨Strategy.EGOIST, 0, 0, "m1"⟩, ⟨Strategy.EGOIST, 0, 0, "m2"⟩])
        (fun b => b) = 3 / 4 ∧
    (3 / 4 : ℚ) ≠ 1 / 2 := by
  constructor
  · norm_num [SrcPop.srcGroupInvolvedDist, SrcPop.flagMembersDist, Distr.bind,
      Distr.dirac, Distr.bernoulli, Distr.probP]
  · norm_num

/-- **C8 (amended).** With zero total fitness the two engines select
differently: `simulation3.py` picks uniformly from the flattened
population (probability `count/total` for a predicate), but
`Population.select_individual_for_duplication` of
`src/src/population.py` first picks a uniform *group* and then a
uniform member of it, giving an individual the probability
`(1/m) · (1/|its group|)` — individuals in smaller groups are selected
more often, not uniformly. -/
theorem c8_amended_zero_fitness_selection_distribution :
    ∀ (pop : SrcPop.Pop) (flat : List Individual) (pred : Individual → Bool),
      Distr.probP (SrcPop.zeroFitnessSelectDist pop) pred =
        ((pop.map (fun g => (g.countP pred : ℚ) / g.length)).sum) / pop.length ∧
      Distr.probP (SrcPop.sim3ZeroFitnessSelectDist flat) pred =
        (flat.countP pred : ℚ) / flat.length := by
  intro pop flat pred
  constructor
  · unfold SrcPop.zeroFitnessSelectDist
    rw [Distr.probP_bind]
    have huni : Distr.uniform pop = pop.map (fun a => (a, 1 / (pop.length : ℚ))) := rfl
    rw [huni, List.map_map]
    have hmap : (List.map ((fun ap => ap.2 * Distr.probP (Distr.uniform ap.1) pred) ∘
        fun a => (a, 1 / (pop.length : ℚ))) pop) =
        List.map (fun g => (1 / (pop.length : ℚ)) *
          ((g.countP pred : ℚ) / g.length)) pop := by
      apply List.map_congr_left
      intro g _
      show (1 / (pop.length : ℚ)) * Distr.probP (Distr.uniform g) pred = _
      rw [Distr.probP_uniform]
    rw [hmap, List.sum_map_mul_left]
    ring
  · unfold SrcPop.sim3ZeroFitnessSelectDist
    rw [Distr.probP_uniform]

/-- **C8 counterexample.** The claim says every individual is selected
with the same probability.  On groups of sizes 1 and 3 the singleton's
member is chosen with probability `1/2` while a member of the size-3
group gets `1/6` — and `1/2 ≠ 1/6` (uniform over the four individuals
would be `1/4` each). -/
theorem c8_counterexample_small_group_bias :
    Distr.probP (SrcPop.zeroFitnessSelectDist
        [[⟨Strategy.EGOIST, 0, 0, "s"⟩],
         [⟨Strategy.EGOIST, 0, 0, "t1"⟩, ⟨Strategy.EGOIST, 0, 0, "t2"⟩,
          ⟨Strategy.EGOIST, 0, 0, "t3"⟩]])
        (fun y => y == ⟨Strategy.EGOIST, 0, 0, "s"⟩) = 1 / 2 ∧
    Distr.probP (SrcPop.zeroFitnessSelectDist
        [[⟨Strategy.EGOIST, 0, 0, "s"⟩],
         [⟨Strategy.EGOIST, 0, 0, "t1"⟩, ⟨Strategy.EGOIST, 0, 0, "t2"⟩,
          ⟨Strategy.EGOIST, 0, 0, "t3"⟩]])
        (fun y => y == ⟨Strategy.EGOIST, 0, 0, "t1"⟩) = 1 / 6 ∧
    (1 / 2 : ℚ) ≠ 1 / 6 := by
  refine ⟨?_, ?_, by norm_num⟩ <;>
    · norm_num [SrcPop.zeroFitnessSelectDist, Distr.bind, Distr.uniform,
        Distr.probP, Individual.beq_def]
      simp +decide


/-- Helper: the concrete ids `"a"` and `"b"` differ. -/
theorem sEq_ab : (("a" : String) = "b") = False := by simp

/-- Helper: the concrete ids `"a"` and `"c"` differ. -/
theorem sEq_ac : (("a" : String) = "c") = False := by simp

/-- Helper: the concrete ids `"a"` and `"d"` differ. -/
theorem sEq_ad : (("a" : String) = "d") = False := by simp

/-- Helper: the concrete ids `"b"` and `"a"` differ. -/
theorem sEq_ba : (("b" : String) = "a") = False := by simp

/-- Helper: the concrete ids `"b"` and `"c"` differ. -/
theorem sEq_bc : (("b" : String) = "c") = False := by simp

/-- Helper: the concrete ids `"b"` and `"d"` differ. -/
theorem sEq_bd : (("b" : String) = "d") = False := by simp

/-- Helper: the concrete ids `"c"` and `"a"` differ. -/
theorem sEq_ca : (("c" : String) = "a") = False := by simp

/-- Helper: the concrete ids `"c"` and `"b"` differ. -/
theorem sEq_cb : (("c" : String) = "b") = False := by simp

/-- Helper: the concrete ids `"c"` and `"d"` differ. -/
theorem sEq_cd : (("c" : String) = "d") = False := by simp

/-- Helper: the concrete ids `"d"` and `"a"` differ. -/
theorem sEq_da : (("d" : String) = "a") = False := by simp

/-- Helper: the concrete ids `"d"` and `"b"` differ. -/
theorem sEq_db : (("d" : String) = "b") = False := by simp

/-- Helper: the concrete ids `"d"` and `"c"` differ. -/
theorem sEq_dc : (("d" : String) = "c") = False := by simp

/-- Concrete four-individual population with a mixed first group
`[a (EGOIST), b (ALTRUIST)]` and an all-EGOIST second group `[c, d]`:
it is not homogeneous, so `Population.run_simulation` enters its loop
body. -/
def popX : SrcPop.Pop :=
  [[⟨Strategy.EGOIST, 0, 0, "a"⟩, ⟨Strategy.ALTRUIST, 0, 0, "b"⟩],
   [⟨Strategy.EGOIST, 0, 0, "c"⟩, ⟨Strategy.EGOIST, 0, 0, "d"⟩]]

/-- Concrete all-EGOIST population: the only strategy profile on which
`calculate_payoff`'s matrix lookup succeeds (both indices are the
integer 2), used to exhibit a successful full generation. -/
def popE : SrcPop.Pop :=
  [[⟨Strategy.EGOIST, 0, 0, "a"⟩, ⟨Strategy.EGOIST, 0, 0, "b"⟩],
   [⟨Strategy.EGOIST, 0, 0, "c"⟩, ⟨Strategy.EGOIST, 0, 0, "d"⟩]]

/-- `popE` with fitness recomputed (`w = 0`, so every fitness is 1). -/
def popE2 : SrcPop.Pop :=
  [[⟨Strategy.EGOIST, 0, 1, "a"⟩, ⟨Strategy.EGOIST, 0, 1, "b"⟩],
   [⟨Strategy.EGOIST, 0, 1, "c"⟩, ⟨Strategy.EGOIST, 0, 1, "d"⟩]]

/-- `popE2` after reproduction: the weighted draw at `u = 0` selects the
first flattened individual `a`, whose deep copy (same id, payoff and
fitness) is appended to group 0. -/
def popE3 : SrcPop.Pop :=
  [[⟨Strategy.EGOIST, 0, 1, "a"⟩, ⟨Strategy.EGOIST, 0, 1, "b"⟩,
    ⟨Strategy.EGOIST, 0, 1, "a"⟩],
   [⟨Strategy.EGOIST, 0, 1, "c"⟩, ⟨Strategy.EGOIST, 0, 1, "d"⟩]]

/-- `popE3` after the splitting phase: group 0 is oversized (3 > 2), the
`q` coin fails, and the removal draw at `u = 0` evicts the front slot. -/
def popE4 : SrcPop.Pop :=
  [[⟨Strategy.EGOIST, 0, 1, "b"⟩, ⟨Strategy.EGOIST, 0, 1, "a"⟩],
   [⟨Strategy.EGOIST, 0, 1, "c"⟩, ⟨Strategy.EGOIST, 0, 1, "d"⟩]]

/-- `popE` after one full generation on the all-zeros stream: still two
groups of two, payoffs and fitness reset. -/
def popEnext : SrcPop.Pop :=
  [[⟨Strategy.EGOIST, 0, 0, "b"⟩, ⟨Strategy.EGOIST, 0, 0, "a"⟩],
   [⟨Strategy.EGOIST, 0, 0, "c"⟩, ⟨Strategy.EGOIST, 0, 0, "d"⟩]]

/-- Helper: interaction phase on the all-EGOIST `popE` (draw offsets
`k … k+7`): every lookup is `matrix[2][2] = 0`, so the population is
unchanged. -/
theorem playGame_popE (k : Nat) :
    SrcPop.playGame cfgEx popE zeroR k = some (popE, k + 8) := by
  norm_num [SrcPop.playGame, SrcPop.playGameLoop, SrcPop.interactAt,
    SrcPop.getRandomPartner, SrcPop.getGroup, SrcPop.randomInGroupMember,
    SrcPop.areInSameGroup, SrcPop.updateById, SrcPop.interactMatrix,
    Individual.calculatePayoff, Individual.beq_def,
    LD.pySubscript, LD.Strategy.value,
    sEq_ab, sEq_ac, sEq_ad, sEq_ba, sEq_bc, sEq_bd, sEq_ca, sEq_cb, sEq_cd,
    sEq_da, sEq_db, sEq_dc,
    LD.pickIndex, cfgEx, zeroR, popE, A_IN_MATRIX, A_OUT_MATRIX]

/-- Helper: fitness phase on `popE` (`w = 0`). -/
theorem calculateFitness_popE :
    SrcPop.calculateFitness cfgEx popE = popE2 := by
  norm_num [SrcPop.calculateFitness, Individual.calculateFitness,
    cfgEx, popE, popE2]

/-- Helper: reproduction phase on `popE2` (draw offsets `k`, `k+1`). -/
theorem reproduce_popE2 (k : Nat) :
    SrcPop.reproduce cfgEx popE2 zeroR k = some (popE3, k + 2) := by
  norm_num [SrcPop.reproduce, SrcPop.selectIndividualForDuplication,
    SrcPop.totalFitnessOf, SrcPop.selectUniformFallback, SrcPop.selectWeighted,
    SrcPop.migrationTargets, LD.pickIndex, LD.pickWeighted, LD.cumSums,
    List.range_succ, List.range_zero, List.flatMap_cons, List.flatMap_nil,
    List.flatMap_append, List.replicate_succ, List.replicate_zero,
    Individual.deepcopy, Individual.beq_def,
    sEq_ab, sEq_ac, sEq_ad, sEq_ba, sEq_bc, sEq_bd, sEq_ca, sEq_cb, sEq_cd,
    sEq_da, sEq_db, sEq_dc,
    cfgEx, zeroR, popE2, popE3]

/-- Helper: conflict phase on `popE3` (`kappa = 0`: no individual is
flagged, five draws are consumed, no pair forms). -/
theorem conflict_popE3 (k : Nat) :
    SrcPop.conflictGroupsWithConflictIndividuals cfgEx winCmpNone popE3
      zeroR k = some (popE3, k + 5) := by
  norm_num [SrcPop.conflictGroupsWithConflictIndividuals,
    SrcPop.pairsConflictGroups, SrcPop.selectConflictGroups,
    SrcPop.flagMembers, SrcPop.repairOdd, SrcPop.pairUp,
    SrcPop.conflictLoopWithInds, LD.pyShuffle, LD.pyShuffleAux,
    cfgEx, zeroR, winCmpNone, popE3]

/-- Helper: splitting phase on `popE3` (draw offsets `k`, `k+1`). -/
theorem splitGroups_popE3 (k : Nat) :
    SrcPop.splitGroups cfgEx 1 popE3 zeroR k = some (popE4, k + 2) := by
  norm_num [SrcPop.splitGroups, SrcPop.splitGroupsAux, SrcPop.splitGroup,
    SrcPop.assignCoins, LD.pickIndex,
    sEq_ab, sEq_ac, sEq_ad, sEq_ba, sEq_bc, sEq_bd, sEq_ca, sEq_cb, sEq_cd,
    sEq_da, sEq_db, sEq_dc,
    cfgEx, zeroR, popE3, popE4]

/-- Helper: recomputing fitness on `popE4` and resetting payoffs and
fitness delivers `popEnext`. -/
theorem reset_popE4 :
    SrcPop.resetPayoffsAndFitness (SrcPop.calculateFitness cfgEx popE4) =
      popEnext := by
  norm_num [SrcPop.resetPayoffsAndFitness, SrcPop.calculateFitness,
    Individual.calculateFitness, cfgEx, popE4, popEnext]

/-- Helper: one full generation of `src/src/population.py` succeeds on
the all-EGOIST `popE` (all-zeros stream, any read offset) and keeps two
groups. -/
theorem genStep_popE (k : Nat) :
    SrcPop.genStep cfgEx winCmpNone 1 popE zeroR k =
      some (popEnext, k + 17) := by
  unfold SrcPop.genStep
  rw [playGame_popE]
  simp only [calculateFitness_popE, reproduce_popE2, conflict_popE3,
    splitGroups_popE3, reset_popE4]

/-- Helper: `calculate_payoff` raises whenever the calling individual's
strategy has a tuple-valued `.value`. -/
theorem calculatePayoff_none_of_tuple (x other : Individual)
    (m : List (List ℚ)) (i : Nat)
    (hv : x.strategy.value = PyVal.tuple1 i) :
    Individual.calculatePayoff x other m = none := by
  unfold Individual.calculatePayoff
  rw [hv]
  rfl

/-- Helper: one `play_game` iteration raises whenever the individual at
the visited position is an `ALTRUIST` or `PAROCHIALIST` (tuple-valued
strategy index), whatever the draws produce. -/
theorem interactAt_none_of_tuple {cfg : SrcPop.Cfg} {pop : SrcPop.Pop}
    {gi ji : Nat} {ind : Individual} {i : Nat} (r : LD.R) (k : Nat)
    (hind : (pop.getD gi [])[ji]? = some ind)
    (hv : ind.strategy.value = PyVal.tuple1 i) :
    SrcPop.interactAt cfg pop gi ji r k = none := by
  unfold SrcPop.interactAt
  split
  · rfl
  next ind2 heq =>
    rw [hind] at heq
    injection heq with heq2
    cases heq2
    rcases SrcPop.getRandomPartner cfg pop ind r k with _ | ⟨_ | partner, k1⟩
    · rfl
    · rfl
    · simp only [fun other m => calculatePayoff_none_of_tuple ind other m i hv]

/-- Helper: a successful `play_game` iteration only writes payoffs (two
in-place id-addressed updates). -/
theorem interactAt_shape {cfg : SrcPop.Cfg} {pop pop2 : SrcPop.Pop}
    {gi ji : Nat} {r : LD.R} {k k2 : Nat}
    (h : SrcPop.interactAt cfg pop gi ji r k = some (pop2, k2)) :
    ∃ i1 v1 i2 v2, pop2 =
      SrcPop.updateById
        (SrcPop.updateById pop i1 (fun x => { x with payoff := v1 }))
        i2 (fun x => { x with payoff := v2 }) := by
  unfold SrcPop.interactAt at h
  split at h
  · exact absurd h (by simp)
  next ind _ =>
    split at h
    · exact absurd h (by simp)
    · exact absurd h (by simp)
    next partner k1 _ =>
      split at h
      · exact absurd h (by simp)
      next ind1 _ =>
        split at h
        · exact absurd h (by simp)
        next par1 _ =>
          simp only [Option.some.injEq, Prod.mk.injEq] at h
          exact ⟨ind.id, ind1.payoff, partner.id, par1.payoff, h.1.symm⟩

/-- Helper: a payoff-only in-place update never changes the strategy
stored at any position. -/
theorem strategyAt_updateById_payoff (pop : SrcPop.Pop) (i : String)
    (v : ℚ) (gi ji : Nat) :
    ((((SrcPop.updateById pop i
          (fun x => { x with payoff := v })).getD gi [])[ji]?).map
        Individual.strategy) =
      (((pop.getD gi [])[ji]?).map Individual.strategy) := by
  unfold SrcPop.updateById
  rw [List.getD_eq_getElem?_getD, List.getD_eq_getElem?_getD,
    List.getElem?_map]
  rcases pop[gi]? with _ | g
  · rfl
  · simp only [Option.map_some', Option.getD_some, List.getElem?_map]
    rcases g[ji]? with _ | x
    · rfl
    · simp only [Option.map_some']
      split <;> rfl

/-- Helper: the interaction phase on `popX` raises for *every* draw
stream and read offset: either the first iteration (individual `a`)
already raises, or it succeeds with two payoff writes and the second
iteration — whose individual is the `ALTRUIST` `b` — raises
`TypeError` inside `calculate_payoff`. -/
theorem playGame_popX_none (r : LD.R) (k : Nat) :
    SrcPop.playGame cfgEx popX r k = none := by
  show SrcPop.playGameLoop cfgEx r [(0, 0), (0, 1), (1, 0), (1, 1)] popX k =
    none
  unfold SrcPop.playGameLoop
  split
  · rfl
  next pop1 k1 h0 =>
    obtain ⟨i1, v1, i2, v2, hshape⟩ := interactAt_shape h0
    have hstrat : ((pop1.getD 0 [])[1]?).map Individual.strategy =
        some Strategy.ALTRUIST := by
      rw [hshape, strategyAt_updateById_payoff, strategyAt_updateById_payoff]
      rfl
    rcases hb : (pop1.getD 0 [])[1]? with _ | b1
    · rw [hb] at hstrat
      exact absurd hstrat (by simp)
    · rw [hb] at hstrat
      simp only [Option.map_some', Option.some.injEq] at hstrat
      unfold SrcPop.playGameLoop
      rw [interactAt_none_of_tuple r k1 hb
        (by rw [hstrat]; rfl : b1.strategy.value = PyVal.tuple1 0)]

/-- Helper: a full generation on `popX` raises: the interaction phase
already fails, for every draw stream and read offset. -/
theorem genStep_popX_none (winCmp : ℚ → ℚ → ℚ → Option Bool) (sf : Nat)
    (r : LD.R) (k : Nat) :
    SrcPop.genStep cfgEx winCmp sf popX r k = none := by
  unfold SrcPop.genStep
  rw [playGame_popX_none]

/-- Helper: `Population.run_simulation` on the non-homogeneous `popX`
raises during its first generation, for every draw stream, read offset,
conflict comparison and positive generation budget. -/
theorem runSimulation_popX_error (winCmp : ℚ → ℚ → ℚ → Option Bool)
    (sf : Nat) (r : LD.R) (k fuel1 : Nat) :
    SrcPop.runSimulation cfgEx winCmp sf (fuel1 + 1) popX r k =
      SrcPop.RunRes.error := by
  rw [SrcPop.runSimulation]
  have hhom : SrcPop.isHomogeneous popX = some false := by decide
  rw [hhom]
  rw [genStep_popX_none]

/-- **C1 (amended).** Only `simulation3.py` enforces a generation cap:
its `for step_i in range(max_steps)` loop executes at most `max_steps`
generation bodies — so the call finishes within `max_steps + 1`
generations — and when the budget is exhausted it returns the plurality
(most frequent) strategy of the current population
(`Counter(...).most_common(1)[0][0]`).  The `Population.run_simulation`
entry points of `src/src/population.py` and
`src/src/classes/population.py` have no step cap at all (see the
counterexample theorem). -/
theorem c1_amended_sim3_loop_is_capped_with_plurality_fallback :
    ∀ (cfg : Sim3.Cfg3) (winCmp3 : ℚ → ℚ → ℚ → Bool) (fuel steps : Nat)
      (pop : Sim3.Pop3) (r : LD.R) (k : Nat),
      (Sim3.sim3Loop cfg winCmp3 fuel steps pop r k).2 ≤ steps ∧
      Sim3.sim3Loop cfg winCmp3 fuel 0 pop r k =
        (match Sim3.majorityStrategy pop with
         | some s => Sim3.Res3.capped s
         | none => Sim3.Res3.error, 0) := by
  intro cfg winCmp3 fuel steps pop r k
  constructor
  · induction steps generalizing pop k with
    | zero => rw [Sim3.sim3Loop]
    | succ steps1 ih =>
        rw [Sim3.sim3Loop]
        rcases hbody : Sim3.sim3Body cfg winCmp3 fuel pop r k with _ | ⟨pop1, k1⟩
        · simp
        · simp only []
          rcases hhom : Sim3.isHomogeneous3 pop1 with _ | s
        

          · simp only []
            have := ih pop1 k1
            omega
          · simp
  · rfl

/-- **C1 counterexample.** The claim asserts that one call to the
replicate entry point terminates within `max_steps + 1` generations and
falls back to the plurality strategy when the cap is reached.
`Population.run_simulation` of `src/src/population.py` has no step
counter and no plurality fallback at all, and on the valid
configuration `cfgEx` it cannot even complete a first generation:
`popX` is not homogeneous, so the loop body runs, and `play_game`
reaches `calculate_payoff` on the `ALTRUIST` `b`, whose tuple-valued
enum index (`ALTRUIST = 0,` with a trailing comma in
`src/src/constants.py`) raises an uncaught `TypeError` — for *every*
draw stream the call raises instead of returning any strategy. -/
theorem c1_counterexample_population_loop_has_no_cap :
    SrcPop.isHomogeneous popX = some false ∧
    (∀ (winCmp : ℚ → ℚ → ℚ → Option Bool) (sf : Nat) (r : LD.R)
        (k fuel1 : Nat),
      SrcPop.runSimulation cfgEx winCmp sf (fuel1 + 1) popX r k =
        SrcPop.RunRes.error) ∧
    SrcPop.runSimulation cfgEx winCmpNone 1 10001 popX zeroR 0 =
      SrcPop.RunRes.error :=
  ⟨by decide, fun winCmp sf r k fuel1 =>
    runSimulation_popX_error winCmp sf r k fuel1,
   runSimulation_popX_error winCmpNone 1 zeroR 0 10000⟩

/-- Helper: updating individuals in place never changes the group count. -/
theorem updateById_length (pop : SrcPop.Pop) (i : String)
    (f : Individual → Individual) :
    (SrcPop.updateById pop i f).length = pop.length := List.length_map _ _

/-- Helper: one interaction preserves the group count. -/
theorem interactAt_length {cfg : SrcPop.Cfg} {pop pop2 : SrcPop.Pop}
    {gi ji : Nat} {r : LD.R} {k k2 : Nat}
    (h : SrcPop.interactAt cfg pop gi ji r k = some (pop2, k2)) :
    pop2.length = pop.length := by
  unfold SrcPop.interactAt at h
  split at h
  · exact absurd h (by simp)
  next ind _ =>
    split at h
    · exact absurd h (by simp)
    · exact absurd h (by simp)
    next partner k1 _ =>
      split at h
      · exact absurd h (by simp)
      next ind1 _ =>
        split at h
        · exact absurd h (by simp)
        next par1 _ =>
          simp only [Option.some.injEq, Prod.mk.injEq] at h
          rw [← h.1]
          rw [updateById_length, updateById_length]

/-- Helper: the interaction fold preserves the group count. -/
theorem playGameLoop_length {cfg : SrcPop.Cfg} {r : LD.R} :
    ∀ (poss : List (Nat × Nat)) (pop pop2 : SrcPop.Pop) (k k2 : Nat),
      SrcPop.playGameLoop cfg r poss pop k = some (pop2, k2) →
      pop2.length = pop.length := by
  intro poss
  induction poss with
  | nil =>
      intro pop pop2 k k2 h
      simp only [SrcPop.playGameLoop, Option.some.injEq, Prod.mk.injEq] at h
      rw [← h.1]
  | cons p rest ih =>
      intro pop pop2 k k2 h
      obtain ⟨gi, ji⟩ := p
      unfold SrcPop.playGameLoop at h
      split at h
      · exact absurd h (by simp)
      next pop1 k1 hstep =>
        rw [ih pop1 pop2 k1 k2 h, interactAt_length hstep]

/-- Helper: the interaction phase preserves the group count. -/
theorem playGame_length {cfg : SrcPop.Cfg} {pop pop2 : SrcPop.Pop}
    {r : LD.R} {k k2 : Nat}
    (h : SrcPop.playGame cfg pop r k = some (pop2, k2)) :
    pop2.length = pop.length := by
  unfold SrcPop.playGame at h
  exact playGameLoop_length _ pop pop2 k k2 h

/-- Helper: the reproduction phase preserves the group count. -/
theorem reproduce_length {cfg : SrcPop.Cfg} {pop pop2 : SrcPop.Pop}
    {r : LD.R} {k k2 : Nat}
    (h : SrcPop.reproduce cfg pop r k = some (pop2, k2)) :
    pop2.length = pop.length := by
  unfold SrcPop.reproduce at h
  split at h
  · exact absurd h (by simp)
  next newInd pgi k1 _ =>
    split at h
    · split at h
      · exact absurd h (by simp)
      next t _ =>
        simp only [Option.some.injEq, Prod.mk.injEq] at h
        rw [← h.1, List.length_set]
    · simp only [Option.some.injEq, Prod.mk.injEq] at h
      rw [← h.1, List.length_set]

/-- Helper: the old conflict fight loop preserves the group count. -/
theorem conflictLoop_length {winCmp : ℚ → ℚ → ℚ → Option Bool} {r : LD.R} :
    ∀ (pairs : List (List Individual × List Individual))
      (pop pop2 : SrcPop.Pop) (k k2 : Nat),
      SrcPop.conflictLoop winCmp r pairs pop k = some (pop2, k2) →
      pop2.length = pop.length := by
  intro pairs
  induction pairs with
  | nil =>
      intro pop pop2 k k2 h
      simp only [SrcPop.conflictLoop, Option.some.injEq, Prod.mk.injEq] at h
      rw [← h.1]
  | cons pr rest ih =>
      intro pop pop2 k k2 h
      obtain ⟨g1, g2⟩ := pr
      simp only [SrcPop.conflictLoop] at h
      split at h
      · exact absurd h (by simp)
      next winner1 _ =>
        split at h
        · exact absurd h (by simp)
        next li _ =>
          rw [ih _ _ _ _ h, List.length_set]

/-- Helper: the new conflict fight loop preserves the group count. -/
theorem conflictLoopWithInds_length {winCmp : ℚ → ℚ → ℚ → Option Bool}
    {r : LD.R} {cis : List Individual} :
    ∀ (pairs : List (List Individual × List Individual))
      (pop pop2 : SrcPop.Pop) (k k2 : Nat),
      SrcPop.conflictLoopWithInds winCmp r cis pairs pop k = some (pop2, k2) →
      pop2.length = pop.length := by
  intro pairs
  induction pairs with
  | nil =>
      intro pop pop2 k k2 h
      simp only [SrcPop.conflictLoopWithInds, Option.some.injEq,
        Prod.mk.injEq] at h
      rw [← h.1]
  | cons pr rest ih =>
      intro pop pop2 k k2 h
      obtain ⟨g1, g2⟩ := pr
      simp only [SrcPop.conflictLoopWithInds] at h
      split at h
      · exact absurd h (by simp)
      next winner1 _ =>
        split at h
        · exact absurd h (by simp)
        next li _ =>
          rw [ih _ _ _ _ h, List.length_set]

/-- Helper: the old conflict phase preserves the group count. -/
theorem conflictGroups_length {cfg : SrcPop.Cfg}
    {winCmp : ℚ → ℚ → ℚ → Option Bool} {pop pop2 : SrcPop.Pop}
    {r : LD.R} {k k2 : Nat}
    (h : SrcPop.conflictGroups cfg winCmp pop r k = some (pop2, k2)) :
    pop2.length = pop.length := by
  unfold SrcPop.conflictGroups at h
  split at h
  · exact absurd h (by simp)
  next pairs k1 _ => exact conflictLoop_length pairs pop pop2 k1 k2 h

/-- Helper: the new conflict phase preserves the group count. -/
theorem conflictGroupsWithConflictIndividuals_length {cfg : SrcPop.Cfg}
    {winCmp : ℚ → ℚ → ℚ → Option Bool} {pop pop2 : SrcPop.Pop}
    {r : LD.R} {k k2 : Nat}
    (h : SrcPop.conflictGroupsWithConflictIndividuals cfg winCmp pop r k =
      some (pop2, k2)) :
    pop2.length = pop.length := by
  unfold SrcPop.conflictGroupsWithConflictIndividuals at h
  split at h
  · exact absurd h (by simp)
  next cis pairs k1 _ =>
    exact conflictLoopWithInds_length pairs pop pop2 k1 k2 h

/-- Helper: `split_group` preserves the group count (it only ever
assigns into existing slots, even through its retry recursion). -/
theorem splitGroup_length {cfg : SrcPop.Cfg} :
    ∀ (fuel : Nat) (pop pop2 : SrcPop.Pop) (index : Nat) (r : LD.R)
      (k k2 : Nat),
      SrcPop.splitGroup cfg fuel pop index r k = some (pop2, k2) →
      pop2.length = pop.length := by
  intro fuel
  induction fuel with
  | zero =>
      intro pop pop2 index r k k2 h
      exact absurd h (by simp [SrcPop.splitGroup])
  | succ f ih =>
      intro pop pop2 index r k k2 h
      simp only [SrcPop.splitGroup] at h
      split at h
      · exact absurd h (by simp)
      next pop1 k1 hrec =>
        split at h
        · exact absurd h (by simp)
        next t _ =>
          simp only [Option.some.injEq, Prod.mk.injEq] at h
          have hp1 : pop1.length = pop.length := by
            split at hrec
            · exact ih pop pop1 index r _ k1 hrec
            · simp only [Option.some.injEq, Prod.mk.injEq] at hrec
              rw [← hrec.1]
          rw [← h.1, List.length_set, List.length_set, hp1]

/-- Helper: the splitting loop preserves the group count. -/
theorem splitGroupsAux_length {cfg : SrcPop.Cfg} {sf : Nat} {r : LD.R} :
    ∀ (count i : Nat) (pop pop2 : SrcPop.Pop) (k k2 : Nat),
      SrcPop.splitGroupsAux cfg sf r count i pop k = some (pop2, k2) →
      pop2.length = pop.length := by
  intro count
  induction count with
  | zero =>
      intro i pop pop2 k k2 h
      simp only [SrcPop.splitGroupsAux, Option.some.injEq, Prod.mk.injEq] at h
      rw [← h.1]
  | succ cnt ih =>
      intro i pop pop2 k k2 h
      simp only [SrcPop.splitGroupsAux] at h
      split at h
      · split at h
        · split at h
          · exact absurd h (by simp)
          next pop1 k1 hsplit =>
            rw [ih _ pop1 pop2 _ _ h, splitGroup_length _ _ _ _ _ _ _ hsplit]
        · rw [ih _ _ pop2 _ _ h, List.length_set]
      · exact ih _ _ _ _ _ h

/-- Helper: the splitting phase preserves the group count. -/
theorem splitGroups_length {cfg : SrcPop.Cfg} {sf : Nat}
    {pop pop2 : SrcPop.Pop} {r : LD.R} {k k2 : Nat}
    (h : SrcPop.splitGroups cfg sf pop r k = some (pop2, k2)) :
    pop2.length = pop.length := by
  unfold SrcPop.splitGroups at h
  exact splitGroupsAux_length _ _ pop pop2 k k2 h

/-- Helper: one full generation preserves the group count. -/
theorem genStep_length {cfg : SrcPop.Cfg} {winCmp : ℚ → ℚ → ℚ → Option Bool}
    {sf : Nat} {pop pop2 : SrcPop.Pop} {r : LD.R} {k k2 : Nat}
    (h : SrcPop.genStep cfg winCmp sf pop r k = some (pop2, k2)) :
    pop2.length = pop.length := by
  simp only [SrcPop.genStep] at h
  split at h
  · exact absurd h (by simp)
  next pop1 k1 hplay =>
    split at h
    · exact absurd h (by simp)
    next pop3 k2a hrep =>
      split at h
      · exact absurd h (by simp)
      next pop4 k3 hconf =>
        split at h
        · exact absurd h (by simp)
        next pop5 k4 hsplit =>
          simp only [Option.some.injEq, Prod.mk.injEq] at h
          have h5 := splitGroups_length hsplit
          have h4 := conflictGroupsWithConflictIndividuals_length hconf
          have h3 := reproduce_length hrep
          have h1 := playGame_length hplay
          rw [← h.1]
          unfold SrcPop.resetPayoffsAndFitness SrcPop.calculateFitness
      

          rw [List.length_map, List.length_map, h5, h4]
          unfold SrcPop.calculateFitness at h3
          rw [h3, List.length_map, h1]

/-- **C4.** The group count is invariant: the interaction, fitness,
reproduction, conflict (both the old `conflict_groups` and the
`conflict_groups_with_conflict_individuals` actually used by
`run_simulation`), and splitting phases of `src/src/population.py` only
assign into existing slots of `self.groups` or change a group's
membership; none of them appends a new group to or removes a group from
the list, so a population built with `m` groups still has `m` groups at
every generation boundary. -/
theorem c4_group_count_invariant :
    ∀ (cfg : SrcPop.Cfg) (winCmp : ℚ → ℚ → ℚ → Option Bool) (sf : Nat)
      (pop pop2 : SrcPop.Pop) (r : LD.R) (k k2 : Nat),
      (SrcPop.playGame cfg pop r k = some (pop2, k2) →
        pop2.length = pop.length) ∧
      ((SrcPop.calculateFitness cfg pop).length = pop.length) ∧
      ((SrcPop.resetPayoffsAndFitness pop).length = pop.length) ∧
      (SrcPop.reproduce cfg pop r k = some (pop2, k2) →
        pop2.length = pop.length) ∧
      (SrcPop.conflictGroups cfg winCmp pop r k = some (pop2, k2) →
        pop2.length = pop.length) ∧
      (SrcPop.conflictGroupsWithConflictIndividuals cfg winCmp pop r k =
          some (pop2, k2) → pop2.length = pop.length) ∧
      (SrcPop.splitGroups cfg sf pop r k = some (pop2, k2) →
        pop2.length = pop.length) ∧
      (SrcPop.genStep cfg winCmp sf pop r k = some (pop2, k2) →
        pop2.length = pop.length) := by
  intro cfg winCmp sf pop pop2 r k k2
  refine ⟨fun h => playGame_length h, List.length_map _ _, List.length_map _ _,
    fun h => reproduce_length h, fun h => conflictGroups_length h,
    fun h => conflictGroupsWithConflictIndividuals_length h,
    fun h => splitGroups_length h, fun h => genStep_length h⟩

/-- **C4 witness.** The invariant applied along concrete successful
phase executions: interaction on the empty population, reproduction on
a two-group population, and a full generation on the all-EGOIST
`popE`. -/
theorem c4_group_count_invariant_witness :
    (([] : SrcPop.Pop).length = ([] : SrcPop.Pop).length) ∧
    (([[⟨Strategy.EGOIST, 3, 0, "par"⟩, ⟨Strategy.EGOIST, 3, 0, "par"⟩],
       [⟨Strategy.ALTRUIST, 5, 0, "oth"⟩]] : SrcPop.Pop).length =
      ([[⟨Strategy.EGOIST, 3, 0, "par"⟩],
        [⟨Strategy.ALTRUIST, 5, 0, "oth"⟩]] : SrcPop.Pop).length) ∧
    (popEnext.length = popE.length) := by
  have hrep : SrcPop.reproduce cfgEx
      [[⟨Strategy.EGOIST, 3, 0, "par"⟩], [⟨Strategy.ALTRUIST, 5, 0, "oth"⟩]]
      zeroR 0 =
      some ([[⟨Strategy.EGOIST, 3, 0, "par"⟩, ⟨Strategy.EGOIST, 3, 0, "par"⟩],
             [⟨Strategy.ALTRUIST, 5, 0, "oth"⟩]], 3) := by
    norm_num [SrcPop.reproduce, SrcPop.selectIndividualForDuplication,
      SrcPop.totalFitnessOf, SrcPop.selectUniformFallback, SrcPop.selectWeighted,
      SrcPop.migrationTargets, LD.pickIndex, cfgEx, zeroR, Individual.deepcopy]
  refine ⟨(c4_group_count_invariant cfgEx winCmpNone 1 [] [] zeroR 0 0).1 rfl,
    (c4_group_count_invariant cfgEx winCmpNone 1
      [[⟨Strategy.EGOIST, 3, 0, "par"⟩], [⟨Strategy.ALTRUIST, 5, 0, "oth"⟩]]
      [[⟨Strategy.EGOIST, 3, 0, "par"⟩, ⟨Strategy.EGOIST, 3, 0, "par"⟩],
       [⟨Strategy.ALTRUIST, 5, 0, "oth"⟩]] zeroR 0 3).2.2.2.1 hrep,
    (c4_group_count_invariant cfgEx winCmpNone 1 popE popEnext zeroR 0
      17).2.2.2.2.2.2.2 (genStep_popE 0)⟩
